import Mathlib

/-!
Verification development for the prompt-library editor extension.

The definitions below are a shallow embedding of the TypeScript source
(`extension.ts` and `services/prompt-evaluation-service.ts`).  JavaScript
strings are modelled as Lean `String`, mutation of the in-memory tree is
modelled by functional update of the first depth-first occurrence (which is
exactly the node that `findById` returns a live reference to), and the
"write the user file, then reload both files" step at the end of every
mutating operation is modelled by the pure round trip
`saveAndReload`.  File-system contents are carried explicitly in the state:
the system document is read-only, the user document is recomputed from the
in-memory forest on every save.
-/

namespace PromptLib

/-! ### JavaScript string primitives -/

/-- `String.prototype.toLowerCase()` (ASCII case folding, which is all the
source's data uses). -/
def jsToLower (s : String) : String := ⟨s.data.map Char.toLower⟩

/-- Is `l1` a contiguous sublist of `l2`?  Executable infix test. -/
def listInfix (l1 l2 : List Char) : Bool :=
  l2.tails.any (fun t => l1.isPrefixOf t)

/-- `a.includes(b)` : substring containment test. -/
def strIncludes (s sub : String) : Bool := listInfix sub.data s.data

/-- `String.prototype.trim()`. -/
def jsTrim (s : String) : String := s.trim

/-- JavaScript truthiness of a string: the empty string is falsy. -/
def jsTruthy (s : String) : Bool := s ≠ ""

/-- `parseInt(s, 10)`: optional whitespace, optional sign, then the maximal
run of leading decimal digits; `none` models `NaN`. -/
def jsParseInt (s : String) : Option Int :=
  let cs := s.data.dropWhile Char.isWhitespace
  let (neg, cs) : Bool × List Char :=
    match cs with
    | c :: rest =>
      if c = Char.ofNat 45 then (true, rest)
      else if c = Char.ofNat 43 then (false, rest)
      else (false, c :: rest)
    | [] => (false, [])
  let digits := cs.takeWhile Char.isDigit
  if digits.isEmpty then none
  else
    let n : Nat := digits.foldl (fun acc c => acc * 10 + (c.toNat - 48)) 0
    some (if neg then -(n : Int) else (n : Int))

/-- Decimal digits of a positive number, most significant first, prepended
to `acc`. -/
def natDigits : Nat → List Char → List Char
  | 0, acc => acc
  | n + 1, acc =>
    natDigits ((n + 1) / 10) (Char.ofNat (48 + (n + 1) % 10) :: acc)
decreasing_by exact Nat.div_lt_self (Nat.succ_pos n) (by norm_num)

/-- Decimal representation of a natural number. -/
def natToString (n : Nat) : String :=
  if n = 0 then "0" else ⟨natDigits n []⟩

/-- `(n).toString()` for the integers produced by the ID counter. -/
def intToString (n : Int) : String :=
  if n < 0 then "-" ++ natToString n.natAbs else natToString n.natAbs

/-! ### Data model (`extension.ts` interfaces) -/

/-- `'system' | 'user'` (the `type` field of a category). -/
inductive CatKind where
  | system
  | user
deriving DecidableEq, Repr

/-- `PromptNodeType = 'category' | 'group' | 'prompt'`. -/
inductive NodeType where
  | category
  | group
  | prompt
deriving DecidableEq, Repr

/-- `PromptEvaluationScore` from `prompt-evaluation-service.ts`. -/
structure EvalScore where
  overallScore : Int
  clarity : Int
  specificity : Int
  context : Int
  efficiency : Int
  relevance : Int
  suggestions : List String
  timestamp : String
deriving DecidableEq, Repr

/-- `interface Prompt` (a record of the JSON documents). -/
structure Prompt where
  id : String
  label : String
  prompt : String
  tags : List String
  evaluation : Option EvalScore := none
deriving DecidableEq, Repr

/-- `interface PromptGroup`. -/
structure PromptGroup where
  id : String
  label : String
  prompts : List Prompt
deriving DecidableEq, Repr

/-- `interface PromptCategory`; `ctype` is the source's `type` field. -/
structure PromptCategory where
  id : String
  label : String
  ctype : CatKind
  groups : List PromptGroup
deriving DecidableEq, Repr

/-- `interface PromptEntry` - the recursive in-memory tree node.  Optional
TypeScript fields (`prompt?`, `children?`, ...) are modelled with `Option`;
an absent `children` array (`undefined`) is `none`, which the source treats
the same way as an empty array in every operation modelled here. -/
inductive PromptEntry : Type where
  | mk (id : String) (label : String) (ntype : NodeType)
       (categoryType : Option CatKind) (prompt : Option String)
       (tags : Option (List String)) (children : Option (List PromptEntry))
       (parentId : Option String) (categoryId : Option String)
       (evaluation : Option EvalScore) : PromptEntry
deriving Repr

namespace PromptEntry

def id : PromptEntry → String
  | .mk i _ _ _ _ _ _ _ _ _ => i

def label : PromptEntry → String
  | .mk _ l _ _ _ _ _ _ _ _ => l

def ntype : PromptEntry → NodeType
  | .mk _ _ t _ _ _ _ _ _ _ => t

def categoryType : PromptEntry → Option CatKind
  | .mk _ _ _ ct _ _ _ _ _ _ => ct

def prompt : PromptEntry → Option String
  | .mk _ _ _ _ p _ _ _ _ _ => p

def tags : PromptEntry → Option (List String)
  | .mk _ _ _ _ _ ts _ _ _ _ => ts

def children : PromptEntry → Option (List PromptEntry)
  | .mk _ _ _ _ _ _ cs _ _ _ => cs

def parentId : PromptEntry → Option String
  | .mk _ _ _ _ _ _ _ p _ _ => p

def categoryId : PromptEntry → Option String
  | .mk _ _ _ _ _ _ _ _ c _ => c

def evaluation : PromptEntry → Option EvalScore
  | .mk _ _ _ _ _ _ _ _ _ e => e

/-- The spread update `{...item, children: cs}`. -/
def setChildren (e : PromptEntry) (cs : Option (List PromptEntry)) : PromptEntry :=
  match e with
  | .mk i l t ct p ts _ pid cid ev => .mk i l t ct p ts cs pid cid ev

end PromptEntry

/-- All node ids of a forest, in depth-first order (node before its
children, children before later siblings) - the traversal order used by
`findById`. -/
def entryIds : List PromptEntry → List String
  | [] => []
  | .mk i _ _ _ _ _ cs _ _ _ :: rest =>
    i :: ((match cs with | some l => entryIds l | none => []) ++ entryIds rest)

/-- `findById(entries, id)`: depth-first search for the first node with the
given id. -/
def findById : List PromptEntry → String → Option PromptEntry
  | [], _ => none
  | .mk i l t ct p ts cs pid cid ev :: rest, j =>
    if i = j then some (.mk i l t ct p ts cs pid cid ev)
    else match cs with
      | some sub =>
        match findById sub j with
        | some found => some found
        | none => findById rest j
      | none => findById rest j

/-- `removeById(entries, id)`: drop every node whose id matches (with its
whole subtree) and recurse into the surviving nodes' children. -/
def removeById : List PromptEntry → String → List PromptEntry
  | [], _ => []
  | .mk i l t ct p ts cs pid cid ev :: rest, j =>
    if i = j then removeById rest j
    else
      (PromptEntry.mk i l t ct p ts
        (match cs with
         | some sub => some (removeById sub j)
         | none => none) pid cid ev) :: removeById rest j

/-- Functional rendering of an in-place mutation through the reference that
`findById` returns: apply `f` to the first depth-first node whose id is `j`
and leave everything else unchanged. -/
def updateFirstById (es : List PromptEntry) (j : String) (f : PromptEntry → PromptEntry) :
    List PromptEntry :=
  go es
where
  go : List PromptEntry → List PromptEntry
    | [] => []
    | .mk i l t ct p ts cs pid cid ev :: rest =>
      let e := PromptEntry.mk i l t ct p ts cs pid cid ev
      if i = j then f e :: rest
      else match cs with
        | some sub =>
          if (findById sub j).isSome then
            e.setChildren (some (go sub)) :: rest
          else e :: go rest
        | none => e :: go rest

/-- The prompt-level object literal of `convertJsonToEntries`. -/
def convertPromptEntry (ctype : CatKind) (catId gid : String) (p : Prompt) : PromptEntry :=
  .mk p.id p.label .prompt (some ctype) (some p.prompt) (some p.tags) none
    (some gid) (some catId) none

/-- The group-level object literal of `convertJsonToEntries`. -/
def convertGroupEntry (ctype : CatKind) (catId : String) (g : PromptGroup) : PromptEntry :=
  .mk g.id g.label .group (some ctype) none none
    (some (g.prompts.map (convertPromptEntry ctype catId g.id))) (some catId) (some catId) none

/-- The category-level object literal of `convertJsonToEntries`. -/
def convertCategoryEntry (c : PromptCategory) : PromptEntry :=
  .mk c.id c.label .category (some c.ctype) none none
    (some (c.groups.map (convertGroupEntry c.ctype c.id))) none none none

/-- `convertJsonToEntries(categories)`: build the display forest.  Category
and group nodes receive the category's `type` as `categoryType`; prompt
entries do not receive an `evaluation` field. -/
def convertJsonToEntries (categories : List PromptCategory) : List PromptEntry :=
  categories.map convertCategoryEntry

/-- The pure core of `saveUserPromptsToJson`: serialize the categories whose
`categoryType` is `'user'` back into the user JSON document.  Only the
`id`/`label`/`prompt`/`tags` fields of prompts are written, so an attached
evaluation is not persisted. -/
def serializePromptRecord (c : PromptEntry) : Prompt :=
  { id := c.id, label := c.label, prompt := c.prompt.getD "", tags := c.tags.getD [] }

def serializeGroupRecord (g : PromptEntry) : PromptGroup :=
  { id := g.id, label := g.label,
    prompts := ((g.children.getD []).filter fun c => c.ntype = .prompt).map
      serializePromptRecord }

def serializeCategoryRecord (e : PromptEntry) : PromptCategory :=
  { id := e.id, label := e.label, ctype := CatKind.user,
    groups := ((e.children.getD []).filter fun c => c.ntype = .group).map
      serializeGroupRecord }

def serializeUser (entries : List PromptEntry) : List PromptCategory :=
  (entries.filter fun e => e.categoryType = some CatKind.user).map
    serializeCategoryRecord

/-- `extractAllPrompts(categories)`: the flat list backing `allPrompts`. -/
def extractAllPrompts (categories : List PromptCategory) : List Prompt :=
  categories.flatMap fun cat => cat.groups.flatMap fun g => g.prompts

/-- `getMaxId(entries)`: maximum over `parseInt(entry.id, 10)` of every node
(ids that do not parse are skipped; the running maximum starts at 0). -/
def getMaxId : List PromptEntry → Int
  | [] => 0
  | .mk i _ _ _ _ _ cs _ _ _ :: rest =>
    let self : Int := match jsParseInt i with
      | some n => if n > 0 then n else 0
      | none => 0
    max self (max (match cs with | some sub => getMaxId sub | none => 0) (getMaxId rest))

/-- The match test of `filterBySearch` for a single node: substring of the
lowercased label, body, or any tag.  `lq` is the already-lowercased query. -/
def entryMatches (lq : String) (e : PromptEntry) : Bool :=
  strIncludes (jsToLower e.label) lq ||
  (match e.prompt with
   | some p => strIncludes (jsToLower p) lq
   | none => false) ||
  (match e.tags with
   | some ts => ts.any fun tag => strIncludes (jsToLower tag) lq
   | none => false)

/-- `filterBySearch(items, query)`: keep a matching node with its original
children; otherwise keep a node whose filtered children are non-empty,
replacing its children with the filtered list; drop everything else. -/
def filterBySearch : List PromptEntry → String → List PromptEntry
  | [], _ => []
  | .mk i l t ct p ts cs pid cid ev :: rest, query =>
    let lq := jsToLower query
    let item := PromptEntry.mk i l t ct p ts cs pid cid ev
    if entryMatches lq item then item :: filterBySearch rest query
    else match cs with
      | some sub =>
        let childMatches := filterBySearch sub query
        if childMatches.length > 0 then
          item.setChildren (some childMatches) :: filterBySearch rest query
        else filterBySearch rest query
      | none => filterBySearch rest query

/-! ### Placeholder-phrase stripping (`addPrompt` / `updatePrompt`) -/

/-- Case-insensitive prefix test (the `i` regex flag). -/
def ciIsPrefixOf : List Char → List Char → Bool
  | [], _ => true
  | _ :: _, [] => false
  | p :: ps, c :: cs => p.toLower == c.toLower && ciIsPrefixOf ps cs

/-- The alternatives of the regex `/e\.g\.,|example:|for example:|such as:/gi`,
in the order the engine tries them. -/
def placeholderPatterns : List (List Char) :=
  ["e.g.,".data, "example:".data, "for example:".data, "such as:".data]

/-- Global replacement of every placeholder-phrase occurrence with the empty
string: at each position the first alternative that matches is removed and
scanning resumes after it. -/
def stripPlaceholdersAux : List Char → List Char
  | [] => []
  | c :: cs =>
    match placeholderPatterns.find? (fun p => ciIsPrefixOf p (c :: cs)) with
    | some p => stripPlaceholdersAux (cs.drop (p.length - 1))
    | none => c :: stripPlaceholdersAux cs
termination_by cs => cs.length
decreasing_by
  · simp [List.length_drop]; omega
  · simp

/-- `prompt.replace(/e\.g\.,|example:|for example:|such as:/gi, '').trim()`. -/
def cleanPromptText (s : String) : String := jsTrim ⟨stripPlaceholdersAux s.data⟩

/-! ### The store (`class PromptLibrary`) -/

/-- In-memory state of the store.  `sysCats` is the parsed content of the
read-only `system-prompts.json`; the user document is not stored separately
because every operation rewrites it from the in-memory forest. -/
structure LibState where
  sysCats : List PromptCategory
  prompts : List PromptEntry
  allPrompts : List Prompt
  nextId : Int
deriving Repr

/-- `loadPrompts()` applied to a system document `sys` and a user document
`ucats`: merge the two category lists, build the forest, and recompute the
ID counter as `getMaxId + 1`. -/
def loadedFrom (sys ucats : List PromptCategory) : LibState :=
  let cats := sys ++ ucats
  { sysCats := sys
    prompts := convertJsonToEntries cats
    allPrompts := extractAllPrompts cats
    nextId := getMaxId (convertJsonToEntries cats) + 1 }

/-- `savePromptsToJson()` followed by `loadPrompts()` (the tail of every
mutating operation): persist the user portion of the forest and reload both
documents. -/
def saveAndReload (st : LibState) : LibState :=
  loadedFrom st.sysCats (serializeUser st.prompts)

/-- Outcome of the external evaluator call, seen from `addPrompt` /
`updatePrompt`: a score, `undefined`, or a thrown error. -/
inductive EvalOutcome where
  | ok (score : EvalScore)
  | undef
  | err
deriving DecidableEq, Repr

/-- The fallback used by `addPrompt` when the evaluator returns `undefined`. -/
def fallbackEvalUndef (now : String) : EvalScore :=
  ⟨65, 6, 7, 6, 7, 7,
   ["Make the prompt more specific.", "Add more context to improve results."], now⟩

/-- The fallback used by `addPrompt` when the evaluator throws. -/
def fallbackEvalError (now : String) : EvalScore :=
  ⟨60, 6, 6, 6, 6, 6, ["Error evaluating prompt. Please try again later."], now⟩

/-- The try/catch around the evaluator call in `addPrompt` (lines building
`newPrompt.evaluation`): an evaluation is always produced. -/
def chooseEvaluation (ev : EvalOutcome) (now : String) : EvalScore :=
  match ev with
  | .ok e => e
  | .undef => fallbackEvalUndef now
  | .err => fallbackEvalError now

namespace PromptEntry

/-- `newPrompt.categoryType = parent.categoryType`. -/
def setCategoryType (e : PromptEntry) (ct : Option CatKind) : PromptEntry :=
  match e with
  | .mk i l t _ p ts cs pid cid ev => .mk i l t ct p ts cs pid cid ev

end PromptEntry

/-- The `newPrompt` object literal of `addPrompt`, with the evaluation the
try/catch attaches before the prompt is persisted. -/
def mkNewPromptEntry (newId label prompt1 : String) (tags : List String)
    (parentId : Option String) (ev : EvalOutcome) (now : String) : PromptEntry :=
  .mk newId label .prompt none (some prompt1) (some tags) none parentId parentId
    (some (chooseEvaluation ev now))

/-- Append the new prompt to the children of the first group-typed child
(`parent.children?.find(g => g.type === 'group')` followed by a push). -/
def pushToFirstGroup (cs : List PromptEntry) (np : PromptEntry) : List PromptEntry :=
  match cs with
  | [] => []
  | g :: rest =>
    if g.ntype = .group then g.setChildren (some ((g.children.getD []) ++ [np])) :: rest
    else g :: pushToFirstGroup rest np

/-- The parent-resolution block of `addPrompt`: attach the new prompt under
the resolved parent, creating a `'Default'` group (with a freshly generated
id) when the parent is a category without one.  Returns the forest and the
ID counter after the optional extra `generateId()`. -/
def attachNewPrompt (entries : List PromptEntry) (parentId : Option String)
    (newPrompt : PromptEntry) (nextId : Int) : List PromptEntry × Int :=
  match parentId with
  | none => (entries, nextId)
  | some pid =>
    match findById entries pid with
    | none => (entries, nextId)
    | some parent =>
      match parent.ntype with
      | .category =>
        match (parent.children.getD []).find? (fun g => g.ntype = .group) with
        | some _ =>
          (updateFirstById entries pid (fun par =>
            par.setChildren (some (pushToFirstGroup (par.children.getD [])
              (newPrompt.setCategoryType par.categoryType)))), nextId)
        | none =>
          let g : PromptEntry :=
            .mk (intToString nextId) "Default" .group parent.categoryType none none
              (some [newPrompt.setCategoryType parent.categoryType]) (some pid) none none
          (updateFirstById entries pid (fun par =>
            par.setChildren (some ((par.children.getD []) ++ [g]))), nextId + 1)
      | .group =>
        (updateFirstById entries pid (fun par =>
          par.setChildren (some ((par.children.getD [])
            ++ [newPrompt.setCategoryType par.categoryType]))), nextId)
      | .prompt => (entries, nextId)

/-- `addPrompt(label, prompt, tags, parentId)`.  The evaluator outcome and
the current timestamp are explicit parameters.  The source ends with a save
and (twice, idempotently) a reload; the returned id is always defined. -/
def addPrompt (st : LibState) (label prompt0 : String) (tags : List String)
    (parentId : Option String) (ev : EvalOutcome) (now : String) :
    LibState × Option String :=
  let prompt1 := cleanPromptText prompt0
  let newId := intToString st.nextId
  let newPrompt := mkNewPromptEntry newId label prompt1 tags parentId ev now
  let (forest1, nid1) := attachNewPrompt st.prompts parentId newPrompt (st.nextId + 1)
  let promptWithEvaluation : Prompt := ⟨newId, label, prompt1, tags, some (chooseEvaluation ev now)⟩
  let st1 : LibState := { st with
    prompts := forest1
    allPrompts := st.allPrompts ++ [promptWithEvaluation]
    nextId := nid1 }
  (saveAndReload st1, some newId)

/-- `deletePrompt(id)`: remove from the forest and the flat list, save the
user portion, reload. -/
def deletePrompt (st : LibState) (i : String) : LibState :=
  saveAndReload { st with
    prompts := removeById st.prompts i
    allPrompts := st.allPrompts.filter (fun p => p.id ≠ i) }

/-- The fields of the `Partial<PromptEntry>` argument of `updatePrompt` that
its call sites and body touch. -/
structure UpdateFields where
  id : Option String := none
  label : Option String := none
  prompt : Option String := none
  tags : Option (List String) := none
  categoryType : Option CatKind := none
  evaluation : Option EvalScore := none
deriving Repr

/-- `Object.assign(entry, updates)`. -/
def applyUpdates (e : PromptEntry) (u : UpdateFields) : PromptEntry :=
  match e with
  | .mk i l t ct p ts cs pid cid ev =>
    .mk (u.id.getD i) (u.label.getD l) t
      (match u.categoryType with | some c => some c | none => ct)
      (match u.prompt with | some p2 => some p2 | none => p)
      (match u.tags with | some ts2 => some ts2 | none => ts) cs pid cid
      (match u.evaluation with | some e2 => some e2 | none => ev)

/-- The fallback of `updatePrompt` when re-evaluation returns `undefined`. -/
def fallbackEvalUpdateUndef (now : String) : EvalScore :=
  ⟨65, 6, 7, 6, 7, 7,
   ["Updated prompt needs refinement.", "Consider adding more specificity."], now⟩

/-- The fallback of `updatePrompt` when re-evaluation throws. -/
def fallbackEvalUpdateError (now : String) : EvalScore :=
  ⟨60, 6, 6, 6, 6, 6, ["Evaluation error occurred. Please check prompt format."], now⟩

/-- The try/catch around the re-evaluation in `updatePrompt`. -/
def chooseEvaluationUpdate (ev : EvalOutcome) (now : String) : EvalScore :=
  match ev with
  | .ok e => e
  | .undef => fallbackEvalUpdateUndef now
  | .err => fallbackEvalUpdateError now

/-- Result of `updatePrompt`: the new state, whether the user document was
written, and whether the evaluation-feedback message was shown (the method
never shows an error message itself). -/
structure UpdateResult where
  state : LibState
  saved : Bool
  showedMessage : Bool
deriving Repr

/-- `updatePrompt(id, updates)`.  A missing id is a silent no-op; a truthy
updated body is cleaned and (when its trim is non-empty) re-evaluated; then
the fields are assigned onto the found node, the user document is saved and
both documents are reloaded. -/
def updatePrompt (st : LibState) (i : String) (updates0 : UpdateFields)
    (ev : EvalOutcome) (now : String) : UpdateResult :=
  let updates1 :=
    match updates0.prompt with
    | some p => if jsTruthy p then { updates0 with prompt := some (cleanPromptText p) }
                else updates0
    | none => updates0
  match findById st.prompts i with
  | none => ⟨st, false, false⟩
  | some _ =>
    let updates2 :=
      match updates1.prompt with
      | some p =>
        if jsTruthy p then
          if jsTruthy (jsTrim p) then
            { updates1 with evaluation := some (chooseEvaluationUpdate ev now) }
          else updates1
        else updates1
      | none => updates1
    let forest1 := updateFirstById st.prompts i (fun e => applyUpdates e updates2)
    let st1 : LibState := { st with prompts := forest1 }
    let showed := (match updates2.prompt with
                   | some p => jsTruthy p
                   | none => false) && updates2.evaluation.isSome
    ⟨saveAndReload st1, true, showed⟩

/-- One user-visible mutation of the store. -/
inductive Op where
  | add (label prompt : String) (tags : List String) (parentId : Option String)
        (ev : EvalOutcome) (now : String)
  | update (i : String) (u : UpdateFields) (ev : EvalOutcome) (now : String)
  | delete (i : String)

def applyOp (st : LibState) : Op → LibState
  | .add l p t pid ev now => (addPrompt st l p t pid ev now).1
  | .update i u ev now => (updatePrompt st i u ev now).state
  | .delete i => deletePrompt st i

def applyOps (st : LibState) (ops : List Op) : LibState := ops.foldl applyOp st

/-! ### Favorites and recent prompts -/

/-- `interface UserPreferences`. -/
structure UserPreferences where
  favorites : List String
  recentPrompts : List String
  searchHistory : List String
deriving DecidableEq, Repr

/-- `createPromptEntry(prompt)`: display entry for favorites / recent lists
(`categoryType` is hard-coded to `'system'` there). -/
def createPromptEntry (p : Prompt) : PromptEntry :=
  .mk p.id p.label .prompt (some .system) (some p.prompt) (some p.tags) none none none none

/-- A default record for the unreachable `p!` branch after the
`!== undefined` filter. -/
def defaultPrompt : Prompt := ⟨"", "", "", [], none⟩

/-- `getFavoritePrompts()`: map ids to `allPrompts.find`, drop the
unresolved ones, convert the rest. -/
def getFavoritePrompts (prefs : UserPreferences) (allPrompts : List Prompt) :
    List PromptEntry :=
  (((prefs.favorites.map fun i => allPrompts.find? fun p => p.id = i).filter
      fun o => o.isSome).map fun o => createPromptEntry (o.getD defaultPrompt))

/-- `getRecentPrompts()`. -/
def getRecentPrompts (prefs : UserPreferences) (allPrompts : List Prompt) :
    List PromptEntry :=
  (((prefs.recentPrompts.map fun i => allPrompts.find? fun p => p.id = i).filter
      fun o => o.isSome).map fun o => createPromptEntry (o.getD defaultPrompt))

/-- `addToRecent(promptId)`: de-duplicate, prepend, cap at 10. -/
def addToRecent (prefs : UserPreferences) (promptId : String) : UserPreferences :=
  let l1 := promptId :: prefs.recentPrompts.erase promptId
  { prefs with recentPrompts := if l1.length > 10 then l1.take 10 else l1 }

/-- `toggleFavorite(promptId)`. -/
def toggleFavorite (prefs : UserPreferences) (promptId : String) : UserPreferences :=
  if prefs.favorites.contains promptId then
    { prefs with favorites := prefs.favorites.erase promptId }
  else { prefs with favorites := prefs.favorites ++ [promptId] }

/-! ### Variable substitution -/

/-- `interface VariableContext`. -/
structure VariableContext where
  selectedText : String
  fileName : String
  language : String
  fileExtension : String
  workspaceName : String
  currentLine : String
  lineNumber : Int
  errorAtCursor : Option String := none
  functionName : Option String := none
  className : Option String := none
  importStatements : Option (List String) := none
  nearbyComments : Option String := none
  fileSize : Int := 0
  projectType : Option String := none
deriving Repr

/-- `x || null` for an optional string field. -/
def jsOrNull (s : Option String) : Option String :=
  match s with
  | some v => if jsTruthy v then some v else none
  | none => none

/-- `getPredefinedVariable(variable, context)`: `none` models `null`
(meaning: ask the user). -/
def getPredefinedVariable (v : String) (ctx : VariableContext) : Option String :=
  match jsToLower v with
  | "selectedtext" | "selection" =>
    some (if jsTruthy ctx.selectedText then ctx.selectedText else ctx.currentLine)
  | "filename" | "file" => some ctx.fileName
  | "language" | "lang" => some ctx.language
  | "extension" | "ext" => some ctx.fileExtension
  | "workspace" | "workspacename" => some ctx.workspaceName
  | "currentline" | "line" => some ctx.currentLine
  | "linenumber" | "lineno" => some (toString ctx.lineNumber)
  | "erroratcursor" | "error" => jsOrNull ctx.errorAtCursor
  | "functionname" | "function" => jsOrNull ctx.functionName
  | "classname" | "class" => jsOrNull ctx.className
  | "imports" | "importstatements" =>
    jsOrNull (ctx.importStatements.map fun l => String.intercalate ", " l)
  | "comments" | "nearbycomments" => jsOrNull ctx.nearbyComments
  | "filesize" => some (toString ctx.fileSize)
  | "projecttype" | "project" => jsOrNull ctx.projectType
  | _ => none

/-- `getDefaultValueForVariable(variable)` (the pre-filled input-box value;
the interactive result itself is modelled by the `userInput` function). -/
def getDefaultValueForVariable (v : String) : String :=
  match jsToLower v with
  | "level" | "experience" => "intermediate"
  | "style" => "concise"
  | "format" => "markdown"
  | "audience" => "developer"
  | _ => ""

/-- `promptForCustomVariables(variables, context)`.  `userInput v = none`
models the user dismissing the input box for `v` (`showInputBox` resolving
to `undefined`), which throws
`Error('Variable substitution cancelled by user')` - modelled as
`Except.error ()`. -/
def promptForCustomVariablesAux (ctx : VariableContext)
    (userInput : String → Option String) :
    List String → List (String × String) → Except Unit (List (String × String))
  | [], acc => .ok acc
  | v :: rest, acc =>
    match getPredefinedVariable v ctx with
    | some pv => promptForCustomVariablesAux ctx userInput rest (acc ++ [(v, pv)])
    | none =>
      match userInput v with
      | none => .error ()
      | some val => promptForCustomVariablesAux ctx userInput rest (acc ++ [(v, val)])

def promptForCustomVariables (vars : List String) (ctx : VariableContext)
    (userInput : String → Option String) : Except Unit (List (String × String)) :=
  promptForCustomVariablesAux ctx userInput vars []

/-- `\w` of the regexes: `[A-Za-z0-9_]`. -/
def jsIsWordChar (c : Char) : Bool :=
  (97 ≤ c.toNat && c.toNat ≤ 122) || (65 ≤ c.toNat && c.toNat ≤ 90) ||
  (48 ≤ c.toNat && c.toNat ≤ 57) || c.toNat = 95

def braceO : Char := Char.ofNat 123
def braceC : Char := Char.ofNat 125
def dollarC : Char := Char.ofNat 36

theorem length_dropWhile_len (p : Char → Bool) (l : List Char) :
    (l.dropWhile p).length ≤ l.length := by
  induction l with
  | nil => simp [List.dropWhile]
  | cons c cs ih =>
    simp only [List.dropWhile]
    by_cases h : p c
    · simp [h]; omega
    · simp [h]

/-- The scan of `/\x7b\x7b(\w+)\x7d\x7d/g` in `extractVariables`: a failed
start advances one character, a match resumes after its end and records the
name on first occurrence. -/
def extractVarsAux : List Char → List String → List String
  | c1 :: c2 :: rest, acc =>
    if c1 = braceO && c2 = braceO then
      let name := rest.takeWhile jsIsWordChar
      if name.isEmpty then extractVarsAux (c2 :: rest) acc
      else
        let rest2 := rest.dropWhile jsIsWordChar
        if rest2.take 2 = [braceC, braceC] then
          let nm : String := ⟨name⟩
          extractVarsAux (rest2.drop 2) (if acc.contains nm then acc else acc ++ [nm])
        else extractVarsAux (c2 :: rest) acc
    else extractVarsAux (c2 :: rest) acc
  | _, acc => acc
termination_by cs _ => cs.length
decreasing_by
  all_goals simp_all
  have h := length_dropWhile_len jsIsWordChar rest
  have h2 := List.length_drop 2 (rest.dropWhile jsIsWordChar)
  omega

/-- `extractVariables(prompt)`: distinct placeholder names in
first-occurrence order. -/
def extractVariables (prompt : String) : List String :=
  extractVarsAux prompt.data []

/-- ECMAScript `GetSubstitution` for a replacement string and a pattern
without capture groups: `$$`, `$&`, the dollar-backquote (text before the
match) and dollar-quote (text after the match) forms are expanded, anything
else is literal. -/
def getSubstitution (matched pre suf : List Char) : List Char → List Char
  | [] => []
  | c :: cs =>
    if c = dollarC then
      match cs with
      | d :: cs2 =>
        if d = dollarC then dollarC :: getSubstitution matched pre suf cs2
        else if d = Char.ofNat 38 then matched ++ getSubstitution matched pre suf cs2
        else if d = Char.ofNat 96 then pre ++ getSubstitution matched pre suf cs2
        else if d = Char.ofNat 39 then suf ++ getSubstitution matched pre suf cs2
        else c :: getSubstitution matched pre suf (d :: cs2)
      | [] => [c]
    else c :: getSubstitution matched pre suf cs

/-- `text.replace(new RegExp(pat, 'gi'), repl)` for a non-empty literal
pattern `pat`: non-overlapping case-insensitive matches are found left to
right on the original text and each is replaced by the `GetSubstitution`
expansion of `repl`.  `pre` accumulates the already-scanned original text
(for the dollar-backquote form). -/
def replaceAllCI (pat repl : List Char) : List Char → List Char → List Char
  | [], _ => []
  | c :: cs, pre =>
    if pat.isEmpty = false && ciIsPrefixOf pat (c :: cs) then
      let matched := (c :: cs).take pat.length
      let rest := cs.drop (pat.length - 1)
      getSubstitution matched pre rest repl ++ replaceAllCI pat repl rest (pre ++ matched)
    else c :: replaceAllCI pat repl cs (pre ++ [c])
termination_by cs _ => cs.length
decreasing_by
  · simp [List.length_drop]; omega
  · simp

/-- The regex pattern text built for one variable. -/
def varPattern (name : String) : List Char :=
  [braceO, braceO] ++ name.data ++ [braceC, braceC]

/-- `substituteVariables(prompt, values)`: one global case-insensitive
replace per map entry, in entry order. -/
def substituteVariables (prompt : String) (values : List (String × String)) : String :=
  values.foldl (fun result vv => ⟨replaceAllCI (varPattern vv.1) vv.2.data result.data []⟩)
    prompt

/-- Result of `copyPromptToClipboard`: either the processed prompt reached
the clipboard (function returns `true`), or the cancellation was caught and
the `'Variable substitution cancelled'` warning shown (returns `false`,
nothing written). -/
inductive CopyResult where
  | copied (text : String)
  | cancelled
deriving DecidableEq, Repr

/-- `copyPromptToClipboard(prompt, promptLabel)` (pure core). -/
def copyPromptToClipboard (prompt : String) (ctx : VariableContext)
    (userInput : String → Option String) : CopyResult :=
  let vars := extractVariables prompt
  if vars.length > 0 then
    match promptForCustomVariables vars ctx userInput with
    | .error _ => .cancelled
    | .ok values => .copied (substituteVariables prompt values)
  else .copied prompt

/-- The user-visible messages of the `usePrompt` command handler. -/
inductive UseMessage where
  | noPromptError
  | cancelWarning
  | copyFailedError
  | sentInfo
deriving DecidableEq, Repr

/-- The `prompt-library.usePrompt` command handler: validates the entry,
runs `copyPromptToClipboard`, and only on success adds the prompt to the
recent list.  Returns the preferences, the clipboard content (if written)
and the messages shown. -/
def usePromptCommand (prefs : UserPreferences) (entry : PromptEntry)
    (ctx : VariableContext) (userInput : String → Option String) :
    UserPreferences × Option String × List UseMessage :=
  match entry.prompt with
  | none => (prefs, none, [.noPromptError])
  | some p =>
    if jsTruthy p = false then (prefs, none, [.noPromptError])
    else
      match copyPromptToClipboard p ctx userInput with
      | .copied text => (addToRecent prefs entry.id, some text, [.sentInfo])
      | .cancelled => (prefs, none, [.cancelWarning, .copyFailedError])

/-! ### Context-aware relevance scoring -/

/-- `enum ContextType` (Lean keywords are suffixed with `T`). -/
inductive ContextType where
  | selection
  | error
  | functionT
  | classT
  | file
  | variableT
  | comment
  | importT
  | test
  | api
  | debug
  | refactor
  | documentation
  | all
deriving DecidableEq, Repr

/-- The fields of the duck-typed `context.data` bag that
`calculateRelevanceScore` reads; absent fields are `none` / `false`. -/
structure ContextData where
  isCode : Bool := false
  errorCode : Option String := none
  functionType : Option String := none
  testFramework : Option String := none
  language : Option String := none
  projectType : Option String := none
  fileName : Option String := none
deriving Repr

/-- The slice of `UsageAnalytics` the scorer reads, with wall-clock
timestamps abstracted to "days since last use" (the quantity the source
derives from `Date.now()` before comparing with 1 and 7). -/
structure AnalyticsModel where
  promptUsage : String → Nat
  daysSinceUsed : String → Option ℚ

/-- A conditional additive bonus (`if (...) score += v`). -/
def boolScore (b : Bool) (v : ℚ) : ℚ := if b then v else 0

/-- The `switch (context.type)` block of `calculateRelevanceScore`:
fixed keyword/tag bonuses per context kind.  `promptText` is the lowercased
body (`''` when absent) and `tags` the prompt's tag list. -/
def contextTypeScore (ctxType : ContextType) (promptText : String)
    (tags : List String) (data : ContextData) : ℚ :=
  match ctxType with
  | .selection =>
    (if data.isCode then
      boolScore (strIncludes promptText "explain" || strIncludes promptText "review" ||
        strIncludes promptText "analyze") 8 +
      boolScore (strIncludes promptText "refactor" || strIncludes promptText "optimize") 6
    else
      boolScore (strIncludes promptText "summarize" || strIncludes promptText "translate") 5) +
    boolScore (tags.contains "explain" || tags.contains "review" ||
      tags.contains "analysis") 4
  | .error =>
    boolScore (strIncludes promptText "debug" || strIncludes promptText "error" ||
      strIncludes promptText "fix") 10 +
    boolScore (strIncludes promptText "troubleshoot" || strIncludes promptText "solve") 8 +
    boolScore (tags.contains "debug" || tags.contains "error" ||
      tags.contains "troubleshoot") 6 +
    (match data.errorCode with
     | some ec => boolScore (jsTruthy ec && strIncludes promptText ec) 5
     | none => 0)
  | .functionT =>
    boolScore (strIncludes promptText "function" || strIncludes promptText "method") 7 +
    boolScore (strIncludes promptText "explain" || strIncludes promptText "document") 6 +
    boolScore (strIncludes promptText "test" && data.functionType = some "async") 4 +
    boolScore (tags.contains "explain" || tags.contains "documentation" ||
      tags.contains "function") 4
  | .classT =>
    boolScore (strIncludes promptText "class" || strIncludes promptText "object") 7 +
    boolScore (strIncludes promptText "design" || strIncludes promptText "architecture") 6 +
    boolScore (tags.contains "class" || tags.contains "oop" || tags.contains "design") 4
  | .test =>
    boolScore (strIncludes promptText "test" || strIncludes promptText "testing") 10 +
    boolScore (strIncludes promptText "unit" || strIncludes promptText "integration") 8 +
    boolScore (strIncludes promptText (data.testFramework.getD "undefined")) 6 +
    boolScore (tags.contains "testing" || tags.contains "unit-tests" ||
      tags.contains "tdd") 5
  | .importT =>
    boolScore (strIncludes promptText "import" || strIncludes promptText "dependency") 7 +
    boolScore (strIncludes promptText "package" || strIncludes promptText "library") 5 +
    boolScore (tags.contains "dependencies" || tags.contains "imports") 4
  | .comment =>
    boolScore (strIncludes promptText "comment" || strIncludes promptText "document") 8 +
    boolScore (strIncludes promptText "explain" || strIncludes promptText "clarify") 6 +
    boolScore (tags.contains "documentation" || tags.contains "comments") 4
  | .variableT =>
    boolScore (strIncludes promptText "variable" || strIncludes promptText "naming") 7 +
    boolScore (strIncludes promptText "refactor" || strIncludes promptText "clean") 5
  | .api =>
    boolScore (strIncludes promptText "api" || strIncludes promptText "endpoint") 8 +
    boolScore (strIncludes promptText "rest" || strIncludes promptText "graphql") 6 +
    boolScore (tags.contains "api" || tags.contains "web" || tags.contains "rest") 5
  | _ => 0

/-- The enhanced language-matching bonuses. -/
def languageScore (promptText promptLabel : String) (tags : List String)
    (data : ContextData) : ℚ :=
  match data.language with
  | some lang0 =>
    if jsTruthy lang0 then
      let language := jsToLower lang0
      boolScore (strIncludes promptText language || strIncludes promptLabel language) 4 +
      boolScore (tags.any fun tag => strIncludes (jsToLower tag) language) 3
    else 0
  | none => 0

/-- The project-type-matching bonuses. -/
def projectTypeScore (promptText promptLabel : String) (tags : List String)
    (data : ContextData) : ℚ :=
  match data.projectType with
  | some proj0 =>
    if jsTruthy proj0 then
      let projectType := jsToLower proj0
      boolScore (strIncludes promptText projectType ||
        strIncludes promptLabel projectType) 5 +
      boolScore (tags.any fun tag => strIncludes (jsToLower tag) projectType) 4
    else 0
  | none => 0

/-- The file-type-specific bonuses. -/
def fileNameScore (promptText : String) (tags : List String)
    (data : ContextData) : ℚ :=
  match data.fileName with
  | some fn0 =>
    if jsTruthy fn0 then
      let fileName := jsToLower fn0
      boolScore (strIncludes fileName "test" &&
        (strIncludes promptText "test" || tags.contains "testing")) 3 +
      boolScore (strIncludes fileName "config" &&
        (strIncludes promptText "config" || tags.contains "configuration")) 3
    else 0
  | none => 0

/-- `Math.min(usageCount * 0.15, 3)`. -/
def usageBoost (analytics : AnalyticsModel) (i : String) : ℚ :=
  min ((analytics.promptUsage i : ℚ) * 0.15) 3

/-- The recent-usage bonus (+2 within a day, +1 within a week). -/
def recencyBoost (analytics : AnalyticsModel) (i : String) : ℚ :=
  match analytics.daysSinceUsed i with
  | some d => if d < 1 then 2 else if d < 7 then 1 else 0
  | none => 0

/-- `calculateRelevanceScore(prompt, context)`: base score 1 plus the fixed
keyword/tag/language/project/file/usage/recency bonuses, floored at 0. -/
def calculateRelevanceScore (analytics : AnalyticsModel) (p : PromptEntry)
    (ctxType : ContextType) (data : ContextData) : ℚ :=
  let promptText := match p.prompt with
    | some t => jsToLower t
    | none => ""
  let promptLabel := jsToLower p.label
  let tags := p.tags.getD []
  max 0 (1 + contextTypeScore ctxType promptText tags data +
    languageScore promptText promptLabel tags data +
    projectTypeScore promptText promptLabel tags data +
    fileNameScore promptText tags data +
    usageBoost analytics p.id + recencyBoost analytics p.id)

/-- Stable insertion (descending by score): an element goes in front of the
first strictly smaller score, after earlier equal scores - the extensional
behaviour of the required-stable `sort((a, b) => b.score - a.score)`. -/
def insertDescStable (x : PromptEntry × ℚ) : List (PromptEntry × ℚ) → List (PromptEntry × ℚ)
  | [] => [x]
  | y :: ys => if x.2 ≥ y.2 then x :: y :: ys else y :: insertDescStable x ys

def sortDescStable (l : List (PromptEntry × ℚ)) : List (PromptEntry × ℚ) :=
  l.foldr insertDescStable []

/-- `getRelevantPrompts(context)` applied to the flat candidate list
(`extractAllPromptEntries(getRootEntries())` in the source): score, keep
strictly positive scores, sort descending (stable), take the top 10. -/
def getRelevantPrompts (analytics : AnalyticsModel) (candidates : List PromptEntry)
    (ctxType : ContextType) (data : ContextData) : List PromptEntry :=
  let scored := candidates.map fun p => (p, calculateRelevanceScore analytics p ctxType data)
  ((sortDescStable (scored.filter fun x => x.2 > 0)).take 10).map fun x => x.1

/-! ## Claim C5 -/

/-- C5: for every forest and every id that does not occur in the forest,
`updatePrompt(id, partial)` is a silent no-op - the state is unchanged, the
user document is not saved, and no message is shown. -/
theorem updatePrompt_missing_id_is_silent_noop (st : LibState) (i : String)
    (u : UpdateFields) (ev : EvalOutcome) (now : String)
    (h : findById st.prompts i = none) :
    updatePrompt st i u ev now = ⟨st, false, false⟩ := by
  simp [updatePrompt, h]

/-- Witness for C5 at a concrete empty store and a missing id. -/
theorem updatePrompt_missing_id_is_silent_noop_witness :
    updatePrompt (loadedFrom [] []) "missing" {} EvalOutcome.undef "" =
      ⟨loadedFrom [] [], false, false⟩ :=
  updatePrompt_missing_id_is_silent_noop _ _ _ _ _
    (by simp [loadedFrom, convertJsonToEntries, convertCategoryEntry, convertGroupEntry, convertPromptEntry, findById])

/-! ## Claim C10 -/

theorem map_filter_isSome_map {α β γ : Type} (f : α → Option β) (g : Option β → γ)
    (l : List α) :
    (((l.map f).filter fun o => o.isSome).map g) =
    ((l.filter fun a => (f a).isSome).map fun a => g (f a)) := by
  induction l with
  | nil => rfl
  | cons a l ih => by_cases h : (f a).isSome <;> simp [h, ih]

/-- C10: `getFavoritePrompts` and `getRecentPrompts` return exactly the
entries for the stored ids that still resolve in `allPrompts`, in stored
order, silently skipping ids that no longer resolve. -/
theorem favorites_recent_skip_stale_ids (prefs : UserPreferences) (ps : List Prompt) :
    getFavoritePrompts prefs ps =
      ((prefs.favorites.filter fun i => (ps.find? fun p => p.id = i).isSome).map
        fun i => createPromptEntry ((ps.find? fun p => p.id = i).getD defaultPrompt)) ∧
    getRecentPrompts prefs ps =
      ((prefs.recentPrompts.filter fun i => (ps.find? fun p => p.id = i).isSome).map
        fun i => createPromptEntry ((ps.find? fun p => p.id = i).getD defaultPrompt)) := by
  constructor
  · have h := map_filter_isSome_map (fun i => ps.find? fun p => p.id = i)
      (fun o => createPromptEntry (o.getD defaultPrompt)) prefs.favorites
    simpa [getFavoritePrompts] using h
  · have h := map_filter_isSome_map (fun i => ps.find? fun p => p.id = i)
      (fun o => createPromptEntry (o.getD defaultPrompt)) prefs.recentPrompts
    simpa [getRecentPrompts] using h

/-! ## Claim C4 -/

/-- C4 counterexample: when the evaluator returns `undefined` (an explicit
failure mode named by the claim), the substituted fallback's suggestion
list is the static pair of improvement hints, none of which is a
`'try again'` suggestion - so the claimed "static 'try again' suggestion
list" does not describe this branch.  The add itself still completes. -/
theorem addPrompt_undef_fallback_lacks_try_again :
    (mkNewPromptEntry "1" "L" "B" [] (some "user") EvalOutcome.undef "t0").evaluation =
      some ( fallbackEvalUndef "t0") ∧
    ( fallbackEvalUndef "t0").suggestions =
      ["Make the prompt more specific.", "Add more context to improve results."] ∧
    (( fallbackEvalUndef "t0").suggestions.any fun s => strIncludes s "try again") = false ∧
    (addPrompt (loadedFrom [] [⟨"user", "User Prompts", .user, []⟩])
      "L" "B" [] (some "user") EvalOutcome.undef "t0").2 = some "1" := by
  refine ⟨rfl, rfl, ?_, ?_⟩
  · decide
  · simp [addPrompt, loadedFrom, convertJsonToEntries, convertCategoryEntry, convertGroupEntry,
      convertPromptEntry, getMaxId, jsParseInt, intToString, natToString, natDigits]

/-- C4 (amended): an evaluator failure (thrown error or `undefined` result)
never blocks or changes the add - the resulting state is the same as for a
successful evaluation of the substituted score and the id is still
returned; a thrown error substitutes the fixed score-60 fallback whose
single static suggestion does say "try again", while an `undefined` result
substitutes the fixed score-65 fallback with two static improvement
suggestions; either way the chosen evaluation is attached to the new prompt
object before the persist step. -/
theorem addPrompt_evaluator_failure_never_blocks (st : LibState) (label body : String)
    (tags : List String) (parentId : Option String) (ev : EvalOutcome) (now : String) :
    (addPrompt st label body tags parentId ev now).1 =
      (addPrompt st label body tags parentId (.ok (chooseEvaluation ev now)) now).1 ∧
    (addPrompt st label body tags parentId ev now).2 = some (intToString st.nextId) ∧
    (mkNewPromptEntry (intToString st.nextId) label (cleanPromptText body) tags parentId
        ev now).evaluation = some (chooseEvaluation ev now) ∧
    chooseEvaluation .err now = fallbackEvalError now ∧
    ((fallbackEvalError now).suggestions.any fun s => strIncludes s "try again") = true ∧
    chooseEvaluation .undef now = fallbackEvalUndef now := by
  refine ⟨?_, ?_, rfl, rfl, ?_, rfl⟩
  · simp [addPrompt, mkNewPromptEntry, chooseEvaluation]
  · simp [addPrompt]
  · rfl

/-! ## Claim C8 -/

/-- Spec-side definition, following the claim's words: every
case-insensitive occurrence of the (non-empty) pattern is replaced verbatim
by the replacement text, globally, left to right. -/
def literalReplaceAllCI (pat repl : List Char) : List Char → List Char
  | [] => []
  | c :: cs =>
    if pat.isEmpty = false && ciIsPrefixOf pat (c :: cs) then
      repl ++ literalReplaceAllCI pat repl (cs.drop (pat.length - 1))
    else c :: literalReplaceAllCI pat repl cs
termination_by cs => cs.length
decreasing_by
  · simp [List.length_drop]; omega
  · simp

theorem getSubstitution_no_dollar (matched pre suf : List Char) :
    ∀ repl, repl.all (fun c => c ≠ dollarC) = true →
      getSubstitution matched pre suf repl = repl := by
  intro repl
  induction repl using getSubstitution.induct matched pre suf with
  | case8 c cs hc ih =>
    intro h
    simp only [List.all_cons, Bool.and_eq_true, decide_eq_true_eq] at h
    cases cs with
    | nil => simp [getSubstitution, hc]
    | cons d ds =>
      rw [getSubstitution.eq_2, if_neg hc, ih (by simpa using h.2)]
  | _ => intro h <;> simp_all [getSubstitution]

theorem replaceAllCI_no_dollar (pat repl : List Char)
    (h : repl.all (fun c => c ≠ dollarC) = true) :
    ∀ (text pre : List Char), replaceAllCI pat repl text pre = literalReplaceAllCI pat repl text := by
  intro text
  induction text using literalReplaceAllCI.induct pat repl with
  | case1 => intro pre; rw [replaceAllCI.eq_1, literalReplaceAllCI.eq_1]
  | case2 c cs hc ih =>
    intro pre
    simp only [replaceAllCI, literalReplaceAllCI]
    split
    · rw [getSubstitution_no_dollar _ _ _ _ h, ih]
    · simp_all
  | case3 c cs hc ih =>
    intro pre
    simp only [replaceAllCI, literalReplaceAllCI]
    split
    · simp_all
    · rw [ih]

/-- C8 counterexample: the replacement value is inserted through the
JavaScript replacement-pattern expansion, so the supplied value `"$$"` is
inserted as the single character `"$"` - the occurrence of the placeholder
is not replaced by the supplied value itself, refuting the claim as stated
at this concrete input. -/
theorem substituteVariables_dollar_escape :
    substituteVariables "Hello \x7b\x7bname\x7d\x7d" [("name", "$$")] = "Hello $" ∧
    "Hello $" ≠ "Hello $$" := by
  constructor
  · have h1 : "Hello \x7b\x7bname\x7d\x7d".data =
      ['H','e','l','l','o',' ', braceO, braceO, 'n','a','m','e', braceC, braceC] := by decide
    have h2 : "name".data = ['n','a','m','e'] := by decide
    have h3 : ("$$" : String).data = [dollarC, dollarC] := by decide
    simp [substituteVariables, varPattern, h1, h2, h3, replaceAllCI, getSubstitution,
      ciIsPrefixOf, Char.toLower, braceO, braceC, dollarC, Char.ofNat]
  · decide

/-- C8 (amended): for a supplied value containing no `'$'` character the
substitution does exactly what the claim says for that map entry: every
occurrence of the placeholder, matched case-insensitively on the name, is
replaced globally by the literal value (an empty value inserts the empty
string); values containing `'$'` are instead expanded as JavaScript
replacement patterns. -/
theorem substituteVariables_global_ci_replace (text name value : String)
    (h : value.data.all (fun c => c ≠ dollarC) = true) :
    substituteVariables text [(name, value)] =
      ⟨literalReplaceAllCI (varPattern name) value.data text.data⟩ := by
  simp only [substituteVariables, List.foldl_cons, List.foldl_nil]
  exact congrArg String.mk (replaceAllCI_no_dollar _ _ h text.data [])

/-- Witness for C8 at the claim's own example: substituting
`name := "World"` into `"Hello {{name}}"` yields `"Hello World"`. -/
theorem substituteVariables_hello_world :
    substituteVariables "Hello \x7b\x7bname\x7d\x7d" [("name", "World")] = "Hello World" := by
  have h := substituteVariables_global_ci_replace "Hello \x7b\x7bname\x7d\x7d" "name" "World"
    (by decide)
  rw [h]
  have h1 : "Hello \x7b\x7bname\x7d\x7d".data =
    ['H','e','l','l','o',' ', braceO, braceO, 'n','a','m','e', braceC, braceC] := by decide
  have h2 : "name".data = ['n','a','m','e'] := by decide
  have h3 : ("World" : String).data = ['W','o','r','l','d'] := by decide
  simp [varPattern, h1, h2, h3, literalReplaceAllCI, ciIsPrefixOf, Char.toLower,
    braceO, braceC, Char.ofNat]

/-! ## Claim C9 -/

theorem promptForCustomVariablesAux_cancel (ctx : VariableContext)
    (input : String → Option String) :
    ∀ (vars : List String) (acc : List (String × String)),
      (∃ v ∈ vars, getPredefinedVariable v ctx = none ∧ input v = none) →
      promptForCustomVariablesAux ctx input vars acc = .error () := by
  intro vars
  induction vars with
  | nil => intro acc h; simp at h
  | cons v0 rest ih =>
    intro acc h
    obtain ⟨v, hv, hpre, hinp⟩ := h
    rcases List.mem_cons.mp hv with heq | hmem
    · subst heq
      simp [promptForCustomVariablesAux, hpre, hinp]
    · cases h0 : getPredefinedVariable v0 ctx with
      | some pv =>
        simp only [promptForCustomVariablesAux, h0]
        exact ih _ ⟨v, hmem, hpre, hinp⟩
      | none =>
        cases hu : input v0 with
        | none => simp [promptForCustomVariablesAux, h0, hu]
        | some val =>
          simp only [promptForCustomVariablesAux, h0, hu]
          exact ih _ ⟨v, hmem, hpre, hinp⟩

/-- C9: if the body of the used prompt has a placeholder that is not
predefined from the editing context and the user cancels its input box,
the whole "use prompt" action aborts as an explicit cancellation: the
cancellation warning (not a silently empty substitution) is shown, nothing
is written to the clipboard, and the recent list and favorites set are
returned exactly as they were. -/
theorem usePrompt_cancel_aborts_without_changes (prefs : UserPreferences)
    (entry : PromptEntry) (ctx : VariableContext) (userInput : String → Option String)
    (p : String) (hp : entry.prompt = some p) (hpt : jsTruthy p = true)
    (v : String) (hv : v ∈ extractVariables p)
    (hpre : getPredefinedVariable v ctx = none) (hinput : userInput v = none) :
    usePromptCommand prefs entry ctx userInput =
      (prefs, none, [.cancelWarning, .copyFailedError]) := by
  have hlen : (extractVariables p).length > 0 :=
    List.length_pos.mpr (List.ne_nil_of_mem hv)
  have hcancel : promptForCustomVariables (extractVariables p) ctx userInput = .error () :=
    promptForCustomVariablesAux_cancel ctx userInput _ _ ⟨v, hv, hpre, hinput⟩
  simp [usePromptCommand, hp, hpt, copyPromptToClipboard, hlen,
    promptForCustomVariables] at hcancel ⊢
  simp [hcancel]

/-- Witness for C9: cancelling the input box for `{{topic}}` leaves the
favorites and recent lists unchanged and copies nothing. -/
theorem usePrompt_cancel_witness :
    usePromptCommand ⟨["1"], ["2"], []⟩
      (.mk "9" "L" .prompt none (some "Hi \x7b\x7btopic\x7d\x7d") none none none none none)
      ⟨"", "f.ts", "typescript", ".ts", "ws", "", 0, none, none, none, none, none, 0, none⟩
      (fun _ => none) =
    (⟨["1"], ["2"], []⟩, none, [.cancelWarning, .copyFailedError]) := by
  have hmem : "topic" ∈ extractVariables "Hi \x7b\x7btopic\x7d\x7d" := by
    have h1 : "Hi \x7b\x7btopic\x7d\x7d".data =
      ['H','i',' ', braceO, braceO, 't','o','p','i','c', braceC, braceC] := by decide
    simp +decide [extractVariables, h1, extractVarsAux, List.takeWhile, List.dropWhile,
      jsIsWordChar, braceO, braceC, Char.ofNat]
  exact usePrompt_cancel_aborts_without_changes _ _ _ _ _ rfl (by decide) "topic" hmem rfl rfl

/-! ## Claim C6 -/

/-- No node anywhere in the forest matches the (lowercased) query. -/
def noMatchForest (lq : String) : List PromptEntry → Bool
  | [] => true
  | .mk i l t ct p ts cs pid cid ev :: rest =>
    !entryMatches lq (.mk i l t ct p ts cs pid cid ev) &&
    (match cs with
     | some sub => noMatchForest lq sub
     | none => true) &&
    noMatchForest lq rest

theorem filterBySearch_append (q : String) :
    ∀ xs ys, filterBySearch (xs ++ ys) q = filterBySearch xs q ++ filterBySearch ys q := by
  intro xs
  induction xs with
  | nil => intro ys; simp [filterBySearch]
  | cons e rest ih =>
    intro ys
    cases e with
    | mk i l t ct p ts cs pid cid ev =>
      cases cs with
      | some sub =>
        simp only [List.cons_append, filterBySearch.eq_2]
        split
        · simp [ih]
        · split
          · simp [ih]
          · simp [ih]
      | none =>
        simp only [List.cons_append, filterBySearch]
        split
        · simp [ih]
        · simp [ih]
theorem filterBySearch_noMatch :
    ∀ es (q : String), noMatchForest (jsToLower q) es = true → filterBySearch es q = [] := by
  intro es q
  induction es, q using filterBySearch.induct <;> intro h
  case case1 => simp [filterBySearch]
  case case2 =>
    rename_i i l t ct p ts cs pid cid ev rest j lq item hm ih
    have hm2 : entryMatches (jsToLower j) (PromptEntry.mk i l t ct p ts cs pid cid ev) = true := hm
    cases cs with
    | some sub =>
      rw [noMatchForest.eq_2] at h
      simp only [Bool.and_eq_true, Bool.not_eq_true'] at h
      rw [h.1.1] at hm2
      cases hm2
    | none =>
      rw [noMatchForest.eq_3] at h
      simp only [Bool.and_eq_true, Bool.not_eq_true'] at h
      rw [h.1.1] at hm2
      cases hm2
  case case3 =>
    rename_i lsub cm hlen item hm ihsub ihrest
    simp only [noMatchForest, Bool.and_eq_true, Bool.not_eq_true'] at h
    have h2 : cm = [] := ihsub h.1.2
    rw [h2] at hlen
    simp at hlen
  case case4 =>
    rename_i lsub cm hlen item hm ihsub ihrest
    simp only [noMatchForest, Bool.and_eq_true, Bool.not_eq_true'] at h
    simp only [filterBySearch.eq_2]
    rw [if_neg (by simp [h.1.1]), if_neg hlen]
    exact ihrest h.2
  case case5 =>
    rename_i hm ihrest
    simp only [noMatchForest, Bool.and_eq_true, Bool.not_eq_true'] at h
    simp only [filterBySearch]
    rw [if_neg (by simp [h.1.1])]
    exact ihrest h.2
theorem filterBySearch_cons_matching (q : String) (e : PromptEntry) (rest : List PromptEntry)
    (hm : entryMatches (jsToLower q) e = true) :
    filterBySearch (e :: rest) q = e :: filterBySearch rest q := by
  cases e with
  | mk i l t ct p ts cs pid cid ev =>
    cases cs with
    | some sub => rw [filterBySearch.eq_2, if_pos hm]
    | none => rw [filterBySearch.eq_3, if_pos hm]

theorem filterBySearch_cons_ancestor (q : String) (e : PromptEntry) (kids rest : List PromptEntry)
    (hm : entryMatches (jsToLower q) e = false)
    (hch : e.children = some kids)
    (hne : filterBySearch kids q ≠ []) :
    filterBySearch (e :: rest) q =
      e.setChildren (some (filterBySearch kids q)) :: filterBySearch rest q := by
  cases e with
  | mk i l t ct p ts cs pid cid ev =>
    simp only [PromptEntry.children] at hch
    subst hch
    rw [filterBySearch.eq_2, if_neg (by simp [hm])]
    have hlen : (filterBySearch kids q).length > 0 := List.length_pos.mpr hne
    simp [hlen, PromptEntry.setChildren]
/-- C6: for a non-empty query that (lowercased) matches nothing in the
forest except one deeply nested prompt's tag, the filtered tree keeps the
prompt's ancestor category and group (with their other fields intact) and
contains no sibling subtree in which nothing matches. -/
theorem search_filter_preserves_ancestor_chain
    (q : String) (hq : q ≠ "")
    (pre post gpre gpost ppre ppost : List PromptEntry) (cat grp p : PromptEntry)
    (hcatty : cat.ntype = .category) (hgrpty : grp.ntype = .group) (hpty : p.ntype = .prompt)
    (hcat : cat.children = some (gpre ++ grp :: gpost))
    (hgrp : grp.children = some (ppre ++ p :: ppost))
    (hptag : ((p.tags.getD []).any fun t => strIncludes (jsToLower t) (jsToLower q)) = true)
    (hnm1 : noMatchForest (jsToLower q) pre = true)
    (hnm2 : noMatchForest (jsToLower q) post = true)
    (hnm3 : noMatchForest (jsToLower q) gpre = true)
    (hnm4 : noMatchForest (jsToLower q) gpost = true)
    (hnm5 : noMatchForest (jsToLower q) ppre = true)
    (hnm6 : noMatchForest (jsToLower q) ppost = true)
    (hcatm : entryMatches (jsToLower q) cat = false)
    (hgrpm : entryMatches (jsToLower q) grp = false) :
    filterBySearch (pre ++ cat :: post) q =
      [cat.setChildren (some [grp.setChildren (some [p])])] := by
  have hpm : entryMatches (jsToLower q) p = true := by
    unfold entryMatches
    cases hpt : p.tags with
    | none => rw [hpt] at hptag; simp at hptag
    | some ts =>
      rw [hpt] at hptag
      simp only [Option.getD_some] at hptag
      simp [hptag]
  have hPM : filterBySearch (ppre ++ p :: ppost) q = [p] := by
    rw [filterBySearch_append, filterBySearch_noMatch _ _ hnm5,
      filterBySearch_cons_matching _ _ _ hpm, filterBySearch_noMatch _ _ hnm6]
    simp
  have hCM : filterBySearch (gpre ++ grp :: gpost) q = [grp.setChildren (some [p])] := by
    rw [filterBySearch_append, filterBySearch_noMatch _ _ hnm3,
      filterBySearch_cons_ancestor q grp _ gpost hgrpm hgrp (by rw [hPM]; simp),
      filterBySearch_noMatch _ _ hnm4, hPM]
    simp
  rw [filterBySearch_append, filterBySearch_noMatch _ _ hnm1,
    filterBySearch_cons_ancestor q cat _ post hcatm hcat (by rw [hCM]; simp),
    filterBySearch_noMatch _ _ hnm2, hCM]
  simp
def c6p : PromptEntry :=
  .mk "p1" "Alpha" .prompt (some .system) (some "body text") (some ["zebraneedle"]) none
    (some "g1") (some "c1") none
def c6p2 : PromptEntry :=
  .mk "p2" "Beta" .prompt (some .system) (some "other") (some ["misc"]) none
    (some "g1") (some "c1") none
def c6p3 : PromptEntry :=
  .mk "p3" "Gamma" .prompt (some .system) (some "stuff") (some []) none
    (some "g2") (some "c1") none
def c6grp : PromptEntry :=
  .mk "g1" "Group One" .group (some .system) none none (some [c6p2, c6p])
    (some "c1") (some "c1") none
def c6grp2 : PromptEntry :=
  .mk "g2" "Group Two" .group (some .system) none none (some [c6p3])
    (some "c1") (some "c1") none
def c6cat : PromptEntry :=
  .mk "c1" "Backend" .category (some .system) none none (some [c6grp, c6grp2]) none none none
def c6cat2 : PromptEntry :=
  .mk "c2" "Frontend" .category (some .system) none none (some []) none none none

/-- Witness for C6: the query `"needle"` matches only the tag
`"zebraneedle"` of the nested prompt; the filter keeps exactly the
category/group/prompt chain. -/
theorem search_filter_ancestor_chain_witness :
    filterBySearch [c6cat, c6cat2] "needle" =
      [c6cat.setChildren (some [c6grp.setChildren (some [c6p])])] :=
  search_filter_preserves_ancestor_chain "needle" (by decide) [] [c6cat2] [] [c6grp2] [c6p2] [] c6cat c6grp c6p
    rfl rfl rfl rfl rfl (by decide)
    (by simp [noMatchForest])
    (by simp +decide [noMatchForest, c6cat2, entryMatches, jsToLower, strIncludes, listInfix])
    (by simp [noMatchForest])
    (by simp +decide [noMatchForest, c6grp2, c6p3, entryMatches, jsToLower, strIncludes, listInfix])
    (by simp +decide [noMatchForest, c6p2, entryMatches, jsToLower, strIncludes, listInfix])
    (by simp [noMatchForest])
    (by decide) (by decide)

/-! ## Claim C7 -/

theorem boolScore_nonneg (b : Bool) (v : ℚ) (hv : 0 ≤ v) : 0 ≤ boolScore b v := by
  cases b <;> simp [boolScore, hv]

theorem contextTypeScore_nonneg (ct : ContextType) (pt : String) (tags : List String)
    (data : ContextData) : 0 ≤ contextTypeScore ct pt tags data := by
  cases ct <;> simp only [contextTypeScore] <;>
    repeat' first
    | apply add_nonneg
    | apply boolScore_nonneg
    | split
    | norm_num

theorem languageScore_nonneg (pt pl : String) (tags : List String) (data : ContextData) :
    0 ≤ languageScore pt pl tags data := by
  simp only [languageScore]
  repeat' first
  | apply add_nonneg
  | apply boolScore_nonneg
  | split
  | norm_num

theorem projectTypeScore_nonneg (pt pl : String) (tags : List String) (data : ContextData) :
    0 ≤ projectTypeScore pt pl tags data := by
  simp only [projectTypeScore]
  repeat' first
  | apply add_nonneg
  | apply boolScore_nonneg
  | split
  | norm_num

theorem fileNameScore_nonneg (pt : String) (tags : List String) (data : ContextData) :
    0 ≤ fileNameScore pt tags data := by
  simp only [fileNameScore]
  repeat' first
  | apply add_nonneg
  | apply boolScore_nonneg
  | split
  | norm_num

theorem usageBoost_nonneg (analytics : AnalyticsModel) (i : String) :
    0 ≤ usageBoost analytics i := by
  unfold usageBoost
  apply le_min
  · positivity
  · norm_num

theorem recencyBoost_nonneg (analytics : AnalyticsModel) (i : String) :
    0 ≤ recencyBoost analytics i := by
  unfold recencyBoost
  repeat' first
  | split
  | norm_num

theorem calculateRelevanceScore_pos (analytics : AnalyticsModel) (p : PromptEntry)
    (ct : ContextType) (data : ContextData) :
    0 < calculateRelevanceScore analytics p ct data := by
  unfold calculateRelevanceScore
  apply lt_of_lt_of_le _ (le_max_right 0 _)
  have h1 := contextTypeScore_nonneg ct (match p.prompt with | some t => jsToLower t | none => "") (p.tags.getD []) data
  have h2 := languageScore_nonneg (match p.prompt with | some t => jsToLower t | none => "") (jsToLower p.label) (p.tags.getD []) data
  have h3 := projectTypeScore_nonneg (match p.prompt with | some t => jsToLower t | none => "") (jsToLower p.label) (p.tags.getD []) data
  have h4 := fileNameScore_nonneg (match p.prompt with | some t => jsToLower t | none => "") (p.tags.getD []) data
  have h5 := usageBoost_nonneg analytics p.id
  have h6 := recencyBoost_nonneg analytics p.id
  linarith

theorem getRelevantPrompts_pair (analytics : AnalyticsModel) (ct : ContextType)
    (data : ContextData) (x y : PromptEntry) :
    getRelevantPrompts analytics [x, y] ct data =
      if calculateRelevanceScore analytics y ct data ≤ calculateRelevanceScore analytics x ct data
      then [x, y] else [y, x] := by
  have hx := calculateRelevanceScore_pos analytics x ct data
  have hy := calculateRelevanceScore_pos analytics y ct data
  simp only [getRelevantPrompts, List.map_cons, List.map_nil, List.filter_cons,
    List.filter_nil, sortDescStable, List.foldr_cons, List.foldr_nil, insertDescStable,
    hx, hy, decide_eq_true_eq, if_true]
  split <;> simp [List.take]

theorem boolScore_true (v : ℚ) : boolScore true v = v := by simp [boolScore]
theorem boolScore_false (v : ℚ) : boolScore false v = 0 := by simp [boolScore]

theorem languageScore_none (pt pl : String) (tags : List String) (data : ContextData)
    (h : data.language = none) : languageScore pt pl tags data = 0 := by
  simp [languageScore, h]

theorem projectTypeScore_none (pt pl : String) (tags : List String) (data : ContextData)
    (h : data.projectType = none) : projectTypeScore pt pl tags data = 0 := by
  simp [projectTypeScore, h]

theorem fileNameScore_none (pt : String) (tags : List String) (data : ContextData)
    (h : data.fileName = none) : fileNameScore pt tags data = 0 := by
  simp [fileNameScore, h]

/-- C7 (amended): for an error-classified context carrying no extra matching
data (no error code, language, project type, or file name), and two
candidate prompts that agree on label, tags, and usage history, where
exactly one body contains `"debug"` and the other contains none of the
keywords `"debug"`/`"error"`/`"fix"` that earn the same +10 bonus, and both
agree on the `"troubleshoot"`/`"solve"` bonus: the scorer assigns the
`"debug"` prompt a score exactly 10 higher, so it precedes the other in the
returned descending list, whichever forest order the pair had. -/
theorem error_context_debug_strictly_higher (analytics : AnalyticsModel)
    (data : ContextData) (a b : PromptEntry) (pa pb : String)
    (hpa : a.prompt = some pa) (hpb : b.prompt = some pb)
    (hdbg : strIncludes (jsToLower pa) "debug" = true)
    (hnb : strIncludes (jsToLower pb) "debug" = false)
    (hne : strIncludes (jsToLower pb) "error" = false)
    (hnf : strIncludes (jsToLower pb) "fix" = false)
    (hts : (strIncludes (jsToLower pa) "troubleshoot" || strIncludes (jsToLower pa) "solve")
         = (strIncludes (jsToLower pb) "troubleshoot" || strIncludes (jsToLower pb) "solve"))
    (hlab : a.label = b.label) (htags : a.tags = b.tags)
    (hu : analytics.promptUsage a.id = analytics.promptUsage b.id)
    (hr : analytics.daysSinceUsed a.id = analytics.daysSinceUsed b.id)
    (hec : data.errorCode = none) (hlang : data.language = none)
    (hproj : data.projectType = none) (hfile : data.fileName = none) :
    calculateRelevanceScore analytics a .error data =
      calculateRelevanceScore analytics b .error data + 10 ∧
    getRelevantPrompts analytics [a, b] .error data = [a, b] ∧
    getRelevantPrompts analytics [b, a] .error data = [a, b] := by
  have hub : usageBoost analytics a.id = usageBoost analytics b.id := by
    unfold usageBoost; rw [hu]
  have hrb : recencyBoost analytics a.id = recencyBoost analytics b.id := by
    unfold recencyBoost; rw [hr]
  have hkey : calculateRelevanceScore analytics a .error data =
      calculateRelevanceScore analytics b .error data + 10 := by
    simp only [calculateRelevanceScore, contextTypeScore, hpa, hpb, hec, hlang, hproj, hfile,
      hdbg, hnb, hne, hnf, hts, hlab, htags, hub, hrb,
      languageScore_none _ _ _ _ hlang, projectTypeScore_none _ _ _ _ hproj,
      fileNameScore_none _ _ _ hfile,
      Bool.true_or, Bool.false_or, boolScore_true, boolScore_false, add_zero, zero_add]
    have n1 : 0 ≤ boolScore (strIncludes (jsToLower pb) "troubleshoot" ||
        strIncludes (jsToLower pb) "solve") 8 := boolScore_nonneg _ _ (by norm_num)
    have n2 : 0 ≤ boolScore ((b.tags.getD []).contains "debug" ||
        (b.tags.getD []).contains "error" || (b.tags.getD []).contains "troubleshoot") 6 :=
      boolScore_nonneg _ _ (by norm_num)
    have n3 := usageBoost_nonneg analytics b.id
    have n4 := recencyBoost_nonneg analytics b.id
    rw [max_eq_right (by linarith), max_eq_right (by linarith)]
    ring
  refine ⟨hkey, ?_, ?_⟩
  · rw [getRelevantPrompts_pair]
    rw [if_pos (by linarith)]
  · rw [getRelevantPrompts_pair]
    rw [if_neg (by linarith)]

def errDataEmpty : ContextData := {}

def emptyAnalytics : AnalyticsModel := ⟨fun _ => 0, fun _ => none⟩

def debugPromptA : PromptEntry :=
  .mk "1" "Helper" .prompt (some .user) (some "fix debug") (some []) none none none none

def plainPromptB : PromptEntry :=
  .mk "2" "Helper" .prompt (some .user) (some "fix") (some []) none none none none

/-- C7 counterexample: two prompts identical except that exactly one body
contains the word `"debug"` - but the shared text contains `"fix"`, which
earns the same +10 bonus, so the scores are equal (not strictly higher) and
the stable descending sort keeps the non-debug prompt first when it comes
first in forest order. -/
theorem error_context_debug_tie :
    calculateRelevanceScore emptyAnalytics debugPromptA .error errDataEmpty =
      calculateRelevanceScore emptyAnalytics plainPromptB .error errDataEmpty ∧
    getRelevantPrompts emptyAnalytics [plainPromptB, debugPromptA] .error errDataEmpty =
      [plainPromptB, debugPromptA] := by
  have ha1 : strIncludes (jsToLower "fix debug") "debug" = true := by decide
  have ha2 : strIncludes (jsToLower "fix debug") "troubleshoot" = false := by decide
  have ha3 : strIncludes (jsToLower "fix debug") "solve" = false := by decide
  have hb1 : strIncludes (jsToLower "fix") "debug" = false := by decide
  have hb2 : strIncludes (jsToLower "fix") "error" = false := by decide
  have hb3 : strIncludes (jsToLower "fix") "fix" = true := by decide
  have hb4 : strIncludes (jsToLower "fix") "troubleshoot" = false := by decide
  have hb5 : strIncludes (jsToLower "fix") "solve" = false := by decide
  have heq : calculateRelevanceScore emptyAnalytics debugPromptA .error errDataEmpty =
      calculateRelevanceScore emptyAnalytics plainPromptB .error errDataEmpty := by
    simp only [calculateRelevanceScore, contextTypeScore, languageScore, projectTypeScore,
      fileNameScore, usageBoost, recencyBoost, debugPromptA, plainPromptB, emptyAnalytics,
      errDataEmpty, PromptEntry.prompt, PromptEntry.label, PromptEntry.tags, PromptEntry.id,
      ha1, ha2, ha3, hb1, hb2, hb3, hb4, hb5,
      Bool.true_or, Bool.false_or, Bool.or_false, Bool.or_true,
      Option.getD_some, List.contains_nil]
  exact ⟨heq, by rw [getRelevantPrompts_pair, if_pos (le_of_eq heq)]⟩

def debugOnlyA : PromptEntry :=
  .mk "1" "Helper" .prompt (some .user) (some "debug") (some []) none none none none

def plainOnlyB : PromptEntry :=
  .mk "2" "Helper" .prompt (some .user) (some "please help") (some []) none none none none

/-- Witness for C7 (amended) at a concrete pair with bodies `"debug"` and
`"please help"`: the debug prompt scores 10 higher and is returned first
from either input order. -/
theorem error_context_debug_strictly_higher_witness :
    calculateRelevanceScore emptyAnalytics debugOnlyA .error errDataEmpty =
      calculateRelevanceScore emptyAnalytics plainOnlyB .error errDataEmpty + 10 ∧
    getRelevantPrompts emptyAnalytics [debugOnlyA, plainOnlyB] .error errDataEmpty =
      [debugOnlyA, plainOnlyB] ∧
    getRelevantPrompts emptyAnalytics [plainOnlyB, debugOnlyA] .error errDataEmpty =
      [debugOnlyA, plainOnlyB] :=
  error_context_debug_strictly_higher emptyAnalytics errDataEmpty debugOnlyA plainOnlyB
    "debug" "please help" rfl rfl (by decide) (by decide) (by decide) (by decide)
    (by decide) rfl rfl rfl rfl rfl rfl rfl rfl

/-! ## Claim C1 -/

/-- All nodes of a forest, depth first. -/
def allNodes : List PromptEntry → List PromptEntry
  | [] => []
  | .mk i l t ct p ts cs pid cid ev :: rest =>
    .mk i l t ct p ts cs pid cid ev ::
      ((match cs with | some sub => allNodes sub | none => []) ++ allNodes rest)

/-- The prompt-typed nodes of a forest. -/
def promptsIn (es : List PromptEntry) : List PromptEntry :=
  (allNodes es).filter fun e => e.ntype = .prompt

/-- C1's invariant: every prompt node in the subtree of a category node
carries that category's `categoryType`. -/
def promptKindInvariant (es : List PromptEntry) : Prop :=
  ∀ c ∈ allNodes es, c.ntype = .category →
    ∀ p ∈ promptsIn (c.children.getD []), p.categoryType = c.categoryType

theorem allNodes_append : ∀ xs ys : List PromptEntry,
    allNodes (xs ++ ys) = allNodes xs ++ allNodes ys := by
  intro xs
  induction xs with
  | nil => intro ys; simp [allNodes]
  | cons e rest ih =>
    intro ys
    cases e with
    | mk i l t ct p ts cs pid cid ev =>
      cases cs <;> simp [allNodes, ih]

theorem allNodes_prompt_entries (ct : CatKind) (catId gid : String) (ps : List Prompt) :
    allNodes (ps.map (convertPromptEntry ct catId gid)) =
      ps.map (convertPromptEntry ct catId gid) := by
  induction ps with
  | nil => simp [allNodes]
  | cons p rest ih => simp [allNodes, convertPromptEntry, ih]

theorem allNodes_group_entries_types (ct : CatKind) (catId : String) (gs : List PromptGroup) :
    ∀ n ∈ allNodes (gs.map (convertGroupEntry ct catId)),
      n.ntype = .group ∨ n.ntype = .prompt := by
  induction gs with
  | nil => intro n hn; simp [allNodes] at hn
  | cons g rest ih =>
    intro n hn
    simp only [List.map_cons, allNodes, convertGroupEntry, List.mem_cons] at hn
    rcases hn with rfl | hn
    · left; rfl
    · rw [List.mem_append] at hn
      rcases hn with hn | hn
      · rw [allNodes_prompt_entries] at hn
        right
        obtain ⟨p, _, rfl⟩ := List.mem_map.mp hn
        rfl
      · exact ih n hn

theorem promptsIn_group_entries_kind (ct : CatKind) (catId : String) (gs : List PromptGroup) :
    ∀ p ∈ promptsIn (gs.map (convertGroupEntry ct catId)),
      p.categoryType = some ct := by
  intro p hp
  simp only [promptsIn, List.mem_filter] at hp
  obtain ⟨hp, _⟩ := hp
  induction gs with
  | nil => simp [allNodes] at hp
  | cons g rest ih =>
    simp only [List.map_cons, allNodes, convertGroupEntry, List.mem_cons] at hp
    rcases hp with rfl | hp
    · rfl
    · rw [List.mem_append] at hp
      rcases hp with hp | hp
      · rw [allNodes_prompt_entries] at hp
        obtain ⟨q, _, rfl⟩ := List.mem_map.mp hp
        rfl
      · exact ih hp

/-- The display forest built from any pair of documents satisfies the
category-kind invariant. -/
theorem promptKindInvariant_convert (cats : List PromptCategory) :
    promptKindInvariant (convertJsonToEntries cats) := by
  induction cats with
  | nil => intro c hc; simp [convertJsonToEntries, allNodes] at hc
  | cons c0 rest ih =>
    intro c hc hcat p hp
    simp only [convertJsonToEntries, List.map_cons, allNodes, convertCategoryEntry, List.mem_cons] at hc
    rcases hc with rfl | hc
    · simp only [PromptEntry.children, PromptEntry.categoryType, Option.getD_some]
      simp only [PromptEntry.children, Option.getD_some] at hp
      exact promptsIn_group_entries_kind c0.ctype c0.id c0.groups p hp
    · rw [List.mem_append] at hc
      rcases hc with hc | hc
      · rcases allNodes_group_entries_types c0.ctype c0.id c0.groups c hc with h | h <;>
          rw [hcat] at h <;> cases h
      · exact ih c hc hcat p hp

theorem applyOp_shape (st : LibState) (op : Op) :
    (∃ cats, (applyOp st op).prompts = convertJsonToEntries cats) ∨ applyOp st op = st := by
  cases op with
  | add l p t pid ev now =>
    left
    exact ⟨_, rfl⟩
  | update i u ev now =>
    cases hf : findById st.prompts i with
    | none =>
      right
      simp [applyOp, updatePrompt, hf]
    | some e =>
      left
      simp only [applyOp, updatePrompt, hf]
      exact ⟨_, rfl⟩
  | delete i =>
    left
    exact ⟨_, rfl⟩

/-- C1: after loading any pair of documents and applying any sequence of
add/update/delete operations, every prompt node sitting under a category
node carries that category's kind as its `categoryType`. -/
theorem prompt_kind_invariant_after_ops (sys ucats : List PromptCategory) (ops : List Op) :
    promptKindInvariant (applyOps (loadedFrom sys ucats) ops).prompts := by
  have key : ∀ (ops : List Op) (st : LibState),
      (∃ cats, st.prompts = convertJsonToEntries cats) →
      ∃ cats, (applyOps st ops).prompts = convertJsonToEntries cats := by
    intro ops
    induction ops with
    | nil => intro st hst; exact hst
    | cons op rest ih =>
      intro st hst
      rcases applyOp_shape st op with h | h
      · exact ih _ h
      · rw [applyOps, List.foldl_cons, h]
        exact ih _ hst
  obtain ⟨cats, hc⟩ := key ops (loadedFrom sys ucats) ⟨sys ++ ucats, rfl⟩
  rw [hc]
  exact promptKindInvariant_convert cats

/-! ## Claim C3 -/

theorem entryIds_append : ∀ xs ys : List PromptEntry,
    entryIds (xs ++ ys) = entryIds xs ++ entryIds ys := by
  intro xs
  induction xs with
  | nil => intro ys; simp [entryIds]
  | cons e rest ih =>
    intro ys
    cases e with
    | mk i l t ct p ts cs pid cid ev => cases cs <;> simp [entryIds, ih]

/-- Ids of the subtrees rooted at nodes whose id is `i` (the nodes
`removeById` deletes), including those nodes' own ids. -/
def idsUnderId : List PromptEntry → String → List String
  | [], _ => []
  | .mk i l t ct p ts cs pid cid ev :: rest, j =>
    (if i = j then entryIds [.mk i l t ct p ts cs pid cid ev]
     else match cs with
       | some sub => idsUnderId sub j
       | none => []) ++ idsUnderId rest j

theorem idsUnderId_append : ∀ xs ys (j : String),
    idsUnderId (xs ++ ys) j = idsUnderId xs j ++ idsUnderId ys j := by
  intro xs
  induction xs with
  | nil => intro ys j; simp [idsUnderId]
  | cons e rest ih =>
    intro ys j
    cases e with
    | mk i l t ct p ts cs pid cid ev => cases cs <;> simp [idsUnderId, ih]

theorem findById_eq_none_iff : ∀ (es : List PromptEntry) (j : String),
    findById es j = none ↔ j ∉ entryIds es := by
  intro es j
  induction es, j using findById.induct with
  | case1 j => simp [findById, entryIds]
  | case2 l t ct p ts cs pid cid ev rest j =>
    cases cs <;> simp [findById, entryIds]
  | case3 i l t ct p ts pid cid ev rest j hne sub found hfound ihsub =>
    have hmem : j ∈ entryIds sub := by
      by_contra hnm
      rw [ihsub.mpr hnm] at hfound
      cases hfound
    simp [findById, entryIds, hne, hfound, hmem]
  | case4 i l t ct p ts pid cid ev rest j hne sub hnone ihsub ihrest =>
    have hnm := ihsub.mp hnone
    simp [findById, entryIds, hne, hnone, hnm, ihrest]
    exact fun _ h => hne h.symm
  | case5 i l t ct p ts pid cid ev rest j hne ihrest =>
    simp [findById, entryIds, hne, ihrest]
    exact fun _ h => hne h.symm
theorem removeById_append : ∀ xs ys (j : String),
    removeById (xs ++ ys) j = removeById xs j ++ removeById ys j := by
  intro xs
  induction xs with
  | nil => intro ys j; simp [removeById]
  | cons e rest ih =>
    intro ys j
    cases e with
    | mk i l t ct p ts cs pid cid ev =>
      by_cases hij : i = j <;> cases cs <;> simp [removeById, hij, ih]

theorem removeById_not_mem : ∀ (es : List PromptEntry) (j : String),
    j ∉ entryIds (removeById es j) := by
  intro es j
  induction es, j using removeById.induct with
  | case1 j => simp [removeById, entryIds]
  | case2 l t ct p ts cs pid cid ev rest j ih =>
    cases cs <;> simp_all [removeById, entryIds]
  | case3 i l t ct p ts cs pid cid ev rest j hne ihsub ihrest =>
    cases cs <;> simp_all [removeById, entryIds] <;> exact fun h => hne h.symm

theorem removeById_noop : ∀ (es : List PromptEntry) (j : String),
    j ∉ entryIds es → removeById es j = es := by
  intro es j
  induction es, j using removeById.induct with
  | case1 j => simp [removeById]
  | case2 l t ct p ts cs pid cid ev rest j ih =>
    intro h
    cases cs <;> simp [entryIds] at h
  | case3 i l t ct p ts cs pid cid ev rest j hne ihsub ihrest =>
    intro h
    cases cs <;> simp_all [removeById, entryIds]

theorem removeById_preserve : ∀ (es : List PromptEntry) (i : String) (j : String),
    j ∈ entryIds es → j ∉ idsUnderId es i → j ∈ entryIds (removeById es i) := by
  intro es i
  induction es, i using removeById.induct with
  | case1 i => intro j h; simp [entryIds] at h
  | case2 l t ct p ts cs pid cid ev rest i ih =>
    intro j hmem hnu
    cases cs <;> simp_all [removeById, entryIds, idsUnderId]
  | case3 i0 l t ct p ts cs pid cid ev rest i hne ihsub ihrest =>
    intro j hmem hnu
    cases cs <;> simp_all [removeById, entryIds, idsUnderId] <;> tauto

def promptTrimEval (p : Prompt) : Prompt := { p with evaluation := none }
def groupTrimEval (g : PromptGroup) : PromptGroup :=
  { g with prompts := g.prompts.map promptTrimEval }
def catTrimEval (c : PromptCategory) : PromptCategory :=
  { c with groups := c.groups.map groupTrimEval }

theorem serializeUser_append (xs ys : List PromptEntry) :
    serializeUser (xs ++ ys) = serializeUser xs ++ serializeUser ys := by
  simp [serializeUser, List.filter_append]

theorem serializePrompt_level (ct : CatKind) (catId gid : String) (ps : List Prompt) :
    (((ps.map (convertPromptEntry ct catId gid)).filter
        fun c => c.ntype = NodeType.prompt).map serializePromptRecord) =
      ps.map promptTrimEval := by
  induction ps with
  | nil => rfl
  | cons p rest ih =>
    simp only [List.map_cons, List.filter_cons]
    rw [if_pos (by exact of_decide_eq_true rfl)]
    simp only [List.map_cons, ih]
    rfl

theorem serializeGroup_level (ct : CatKind) (catId : String) (gs : List PromptGroup) :
    (((gs.map (convertGroupEntry ct catId)).filter
        fun c => c.ntype = NodeType.group).map serializeGroupRecord) =
      gs.map groupTrimEval := by
  induction gs with
  | nil => rfl
  | cons g rest ih =>
    simp only [List.map_cons, List.filter_cons]
    rw [if_pos (by exact of_decide_eq_true rfl)]
    simp only [List.map_cons, ih]
    congr 1
    simp only [serializeGroupRecord, convertGroupEntry, PromptEntry.children,
      PromptEntry.id, PromptEntry.label, Option.getD_some, serializePrompt_level]
    rfl

theorem serializeUser_convert (cats : List PromptCategory) :
    serializeUser (convertJsonToEntries cats) =
      (cats.filter fun c => c.ctype = CatKind.user).map catTrimEval := by
  induction cats with
  | nil => rfl
  | cons c rest ih =>
    simp only [convertJsonToEntries, List.map_cons, serializeUser, List.filter_cons] at *
    by_cases hc : c.ctype = CatKind.user
    · rw [if_pos (by simp [convertCategoryEntry, hc, PromptEntry.categoryType]),
        if_pos (by simp [hc])]
      simp only [List.map_cons]
      rw [ih]
      congr 1
      simp only [serializeCategoryRecord, convertCategoryEntry, hc, PromptEntry.children,
        PromptEntry.id, PromptEntry.label, Option.getD_some, serializeGroup_level]
      simp [catTrimEval, hc]
    · rw [if_neg (by simp [convertCategoryEntry, hc, PromptEntry.categoryType]),
        if_neg (by simp [hc])]
      exact ih

theorem convertPrompt_trim (ct : CatKind) (catId gid : String) (p : Prompt) :
    convertPromptEntry ct catId gid (promptTrimEval p) = convertPromptEntry ct catId gid p := by
  simp [convertPromptEntry, promptTrimEval]

theorem convertGroup_trim (ct : CatKind) (catId : String) (g : PromptGroup) :
    convertGroupEntry ct catId (groupTrimEval g) = convertGroupEntry ct catId g := by
  simp only [convertGroupEntry, groupTrimEval, List.map_map]
  have hm : List.map (convertPromptEntry ct catId g.id ∘ promptTrimEval) g.prompts =
      List.map (convertPromptEntry ct catId g.id) g.prompts := by
    apply List.map_congr_left
    intro p _
    exact convertPrompt_trim ct catId g.id p
  rw [hm]

theorem convertCat_trim (c : PromptCategory) :
    convertCategoryEntry (catTrimEval c) = convertCategoryEntry c := by
  simp only [convertCategoryEntry, catTrimEval, List.map_map]
  have hm : List.map (convertGroupEntry c.ctype c.id ∘ groupTrimEval) c.groups =
      List.map (convertGroupEntry c.ctype c.id) c.groups := by
    apply List.map_congr_left
    intro g _
    exact convertGroup_trim c.ctype c.id g
  rw [hm]

theorem convert_trim (cats : List PromptCategory) :
    convertJsonToEntries (cats.map catTrimEval) = convertJsonToEntries cats := by
  simp only [convertJsonToEntries, List.map_map]
  apply List.map_congr_left
  intro c _
  exact convertCat_trim c

theorem removeById_subset : ∀ (es : List PromptEntry) (i j : String),
    j ∈ entryIds (removeById es i) → j ∈ entryIds es := by
  intro es i
  induction es, i using removeById.induct with
  | case1 i => intro j h; simp [removeById, entryIds] at h
  | case2 l t ct p ts cs pid cid ev rest i ih =>
    intro j h
    cases cs <;> simp_all [removeById, entryIds]
  | case3 i0 l t ct p ts cs pid cid ev rest i hne ihsub ihrest =>
    intro j h
    cases cs <;> simp_all [removeById, entryIds] <;> tauto

def removePromptsJson (ps : List Prompt) (i : String) : List Prompt :=
  ps.filter fun p => p.id ≠ i

def removeGroupsJson (gs : List PromptGroup) (i : String) : List PromptGroup :=
  (gs.filter fun g => g.id ≠ i).map fun g =>
    { g with prompts := removePromptsJson g.prompts i }

def removeCatsJson (cs : List PromptCategory) (i : String) : List PromptCategory :=
  (cs.filter fun c => c.id ≠ i).map fun c =>
    { c with groups := removeGroupsJson c.groups i }

theorem removePrompt_level (ct : CatKind) (catId gid : String) (ps : List Prompt)
    (i : String) :
    removeById (ps.map (convertPromptEntry ct catId gid)) i =
      (removePromptsJson ps i).map (convertPromptEntry ct catId gid) := by
  induction ps with
  | nil => simp [removeById, removePromptsJson]
  | cons p rest ih =>
    simp only [List.map_cons, removePromptsJson, List.filter_cons] at *
    by_cases hp : p.id = i
    · rw [show removeById (convertPromptEntry ct catId gid p ::
          List.map (convertPromptEntry ct catId gid) rest) i =
          removeById (List.map (convertPromptEntry ct catId gid) rest) i from by
        simp [removeById, convertPromptEntry, hp]]
      rw [if_neg (by simp [hp])]
      exact ih
    · rw [show removeById (convertPromptEntry ct catId gid p ::
          List.map (convertPromptEntry ct catId gid) rest) i =
          convertPromptEntry ct catId gid p ::
            removeById (List.map (convertPromptEntry ct catId gid) rest) i from by
        simp [removeById, convertPromptEntry, hp]]
      rw [if_pos (by simp [hp])]
      simp only [List.map_cons, ih]

theorem removeGroup_level (ct : CatKind) (catId : String) (gs : List PromptGroup)
    (i : String) :
    removeById (gs.map (convertGroupEntry ct catId)) i =
      (removeGroupsJson gs i).map (convertGroupEntry ct catId) := by
  induction gs with
  | nil => simp [removeById, removeGroupsJson]
  | cons g rest ih =>
    simp only [List.map_cons, removeGroupsJson, List.filter_cons] at *
    by_cases hg : g.id = i
    · rw [show removeById (convertGroupEntry ct catId g ::
          List.map (convertGroupEntry ct catId) rest) i =
          removeById (List.map (convertGroupEntry ct catId) rest) i from by
        simp [removeById, convertGroupEntry, hg]]
      rw [if_neg (by simp [hg])]
      exact ih
    · rw [show removeById (convertGroupEntry ct catId g ::
          List.map (convertGroupEntry ct catId) rest) i =
          (convertGroupEntry ct catId g).setChildren
            (some (removeById (g.prompts.map (convertPromptEntry ct catId g.id)) i)) ::
            removeById (List.map (convertGroupEntry ct catId) rest) i from by
        simp [removeById, convertGroupEntry, hg, PromptEntry.setChildren]]
      rw [if_pos (by simp [hg])]
      simp only [List.map_cons, ih]
      congr 1
      simp [convertGroupEntry, PromptEntry.setChildren, removePrompt_level]

theorem removeById_convert (cats : List PromptCategory) (i : String) :
    removeById (convertJsonToEntries cats) i =
      convertJsonToEntries (removeCatsJson cats i) := by
  induction cats with
  | nil => simp [removeById, removeCatsJson, convertJsonToEntries]
  | cons c rest ih =>
    simp only [convertJsonToEntries, List.map_cons, removeCatsJson, List.filter_cons] at *
    by_cases hc : c.id = i
    · rw [show removeById (convertCategoryEntry c ::
          List.map convertCategoryEntry rest) i =
          removeById (List.map convertCategoryEntry rest) i from by
        simp [removeById, convertCategoryEntry, hc]]
      rw [if_neg (by simp [hc])]
      exact ih
    · rw [show removeById (convertCategoryEntry c ::
          List.map convertCategoryEntry rest) i =
          (convertCategoryEntry c).setChildren
            (some (removeById (c.groups.map (convertGroupEntry c.ctype c.id)) i)) ::
            removeById (List.map convertCategoryEntry rest) i from by
        simp [removeById, convertCategoryEntry, hc, PromptEntry.setChildren]]
      rw [if_pos (by simp [hc])]
      simp only [List.map_cons, ih]
      congr 1
      simp [convertCategoryEntry, PromptEntry.setChildren, removeGroup_level]

theorem serializeUser_system_nil (cats : List PromptCategory)
    (h : ∀ c ∈ cats, c.ctype = CatKind.system) :
    serializeUser (convertJsonToEntries cats) = [] := by
  rw [serializeUser_convert]
  have : cats.filter (fun c => c.ctype = CatKind.user) = [] := by
    apply List.filter_eq_nil_iff.mpr
    intro c hc
    simp [h c hc]
  rw [this]
  rfl

theorem removeCatsJson_all_user (cs : List PromptCategory) (i : String)
    (h : ∀ c ∈ cs, c.ctype = CatKind.user) :
    ∀ c ∈ removeCatsJson cs i, c.ctype = CatKind.user := by
  intro c hc
  simp only [removeCatsJson, List.mem_map, List.mem_filter] at hc
  obtain ⟨c0, ⟨hc0, _⟩, hco⟩ := hc
  rw [← hco]
  exact h c0 hc0

theorem convertJson_append (xs ys : List PromptCategory) :
    convertJsonToEntries (xs ++ ys) = convertJsonToEntries xs ++ convertJsonToEntries ys := by
  simp [convertJsonToEntries]

theorem deletePrompt_prompts_eq (sys ucats : List PromptCategory) (i : String)
    (hsys : ∀ c ∈ sys, c.ctype = CatKind.system)
    (huser : ∀ c ∈ ucats, c.ctype = CatKind.user)
    (hni : i ∉ entryIds (convertJsonToEntries sys)) :
    (deletePrompt (loadedFrom sys ucats) i).prompts =
      removeById (loadedFrom sys ucats).prompts i := by
  have hst : (loadedFrom sys ucats).prompts =
      convertJsonToEntries sys ++ convertJsonToEntries ucats := by
    simp [loadedFrom, convertJson_append]
  have hrem : removeById (loadedFrom sys ucats).prompts i =
      convertJsonToEntries sys ++ convertJsonToEntries (removeCatsJson ucats i) := by
    rw [hst, removeById_append, removeById_noop _ _ hni, removeById_convert]
  have hfil : (removeCatsJson ucats i).filter (fun c => c.ctype = CatKind.user) =
      removeCatsJson ucats i := by
    apply List.filter_eq_self.mpr
    intro c hc
    simp [removeCatsJson_all_user ucats i huser c hc]
  have hsave : serializeUser (removeById (loadedFrom sys ucats).prompts i) =
      (removeCatsJson ucats i).map catTrimEval := by
    rw [hrem, serializeUser_append, serializeUser_system_nil sys hsys,
      serializeUser_convert, hfil]
    rfl
  show (saveAndReload _).prompts = _
  simp only [saveAndReload, deletePrompt]
  have hsc : (loadedFrom sys ucats).sysCats = sys := rfl
  rw [hsc, hsave]
  simp only [loadedFrom, convertJson_append, convert_trim]
  rw [removeById_append, removeById_noop _ _ hni, removeById_convert]

/-- The system category of the counterexample: a read-only category holding
one prompt with id `"1"`. -/
def c3sysCat : PromptCategory :=
  { id := "s1", label := "System", ctype := CatKind.system,
    groups := [{ id := "g1", label := "General",
                 prompts := [{ id := "1", label := "Sys prompt", prompt := "body",
                               tags := [] }] }] }

/-- Claim C3, counterexample: `deletePrompt` is not a deletion for ids under a
system category.  The node is removed from the in-memory forest, but the save
only writes user categories and the immediate reload rebuilds the forest from
the untouched system document, so `findById` still resolves the id. -/
theorem deletePrompt_system_prompt_resurrected :
    (findById (deletePrompt (loadedFrom [c3sysCat] []) "1").prompts "1").isSome = true := by
  have h1 : (deletePrompt (loadedFrom [c3sysCat] []) "1").prompts =
      convertJsonToEntries ([c3sysCat] ++ serializeUser
        (removeById (loadedFrom [c3sysCat] []).prompts "1")) := rfl
  rw [h1]
  have h2 : (loadedFrom [c3sysCat] []).prompts = convertJsonToEntries [c3sysCat] := by
    simp [loadedFrom]
  rw [h2, removeById_convert, serializeUser_convert]
  have h3 : (removeCatsJson [c3sysCat] "1").filter
      (fun c => c.ctype = CatKind.user) = [] := by
    simp [removeCatsJson, c3sysCat, removePromptsJson, removeGroupsJson]
  rw [h3]
  simp only [List.map_nil, List.append_nil]
  simp [convertJsonToEntries, convertCategoryEntry, convertGroupEntry,
    convertPromptEntry, c3sysCat, findById]

/-- Claim C3, amended.  Restricted to a store whose system document carries
only system-typed categories, whose user document carries only user-typed
categories, and an id that does not occur in the system forest: after
`deletePrompt(id)` the forest equals `removeById` of the previous forest,
`findById(id)` returns `none`, and every id outside the deleted subtrees is
still present (no other id is removed).  Without the restriction the claim
fails: ids under a system category are resurrected by the reload
(`deletePrompt_system_prompt_resurrected`). -/
theorem delete_removes_subtree_preserves_rest (sys ucats : List PromptCategory)
    (i : String)
    (hsys : ∀ c ∈ sys, c.ctype = CatKind.system)
    (huser : ∀ c ∈ ucats, c.ctype = CatKind.user)
    (hni : i ∉ entryIds (convertJsonToEntries sys)) :
    (deletePrompt (loadedFrom sys ucats) i).prompts =
        removeById (loadedFrom sys ucats).prompts i ∧
      findById (deletePrompt (loadedFrom sys ucats) i).prompts i = none ∧
      ∀ j, j ≠ i → j ∉ idsUnderId (loadedFrom sys ucats).prompts i →
        (j ∈ entryIds (deletePrompt (loadedFrom sys ucats) i).prompts ↔
          j ∈ entryIds (loadedFrom sys ucats).prompts) := by
  have heq := deletePrompt_prompts_eq sys ucats i hsys huser hni
  refine ⟨heq, ?_, ?_⟩
  · rw [heq]
    exact (findById_eq_none_iff _ _).mpr (removeById_not_mem _ _)
  · intro j _ hnu
    rw [heq]
    exact ⟨removeById_subset _ _ _, fun hmem => removeById_preserve _ _ _ hmem hnu⟩

/-- A one-category user document for the witness. -/
def c3userCat : PromptCategory :=
  { id := "2", label := "Mine", ctype := CatKind.user,
    groups := [{ id := "3", label := "G",
                 prompts := [{ id := "4", label := "A", prompt := "a", tags := [] },
                             { id := "5", label := "B", prompt := "b", tags := [] }] }] }

theorem delete_removes_subtree_preserves_rest_witness :
    ((∀ c ∈ [c3sysCat], c.ctype = CatKind.system) ∧
       (∀ c ∈ [c3userCat], c.ctype = CatKind.user) ∧
       "4" ∉ entryIds (convertJsonToEntries [c3sysCat])) ∧
      ((deletePrompt (loadedFrom [c3sysCat] [c3userCat]) "4").prompts =
          removeById (loadedFrom [c3sysCat] [c3userCat]).prompts "4" ∧
        findById (deletePrompt (loadedFrom [c3sysCat] [c3userCat]) "4").prompts "4" =
          none ∧
        ∀ j, j ≠ "4" → j ∉ idsUnderId (loadedFrom [c3sysCat] [c3userCat]).prompts "4" →
          (j ∈ entryIds (deletePrompt (loadedFrom [c3sysCat] [c3userCat]) "4").prompts ↔
            j ∈ entryIds (loadedFrom [c3sysCat] [c3userCat]).prompts)) := by
  have hsys : ∀ c ∈ [c3sysCat], c.ctype = CatKind.system := by
    intro c hc
    simp only [List.mem_singleton] at hc
    rw [hc]
    rfl
  have huser : ∀ c ∈ [c3userCat], c.ctype = CatKind.user := by
    intro c hc
    simp only [List.mem_singleton] at hc
    rw [hc]
    rfl
  have hni : "4" ∉ entryIds (convertJsonToEntries [c3sysCat]) := by
    simp [convertJsonToEntries, convertCategoryEntry, convertGroupEntry,
      convertPromptEntry, c3sysCat, entryIds]
  exact ⟨⟨hsys, huser, hni⟩,
    delete_removes_subtree_preserves_rest [c3sysCat] [c3userCat] "4" hsys huser hni⟩

/-! ## Claim C2 -/

theorem natDigits_acc (m : Nat) : ∀ acc, natDigits m acc = natDigits m [] ++ acc := by
  induction m using Nat.strong_induction_on with
  | _ m ih =>
    intro acc
    match m with
    | 0 => simp [natDigits]
    | n + 1 =>
      rw [natDigits, natDigits]
      rw [ih ((n + 1) / 10) (Nat.div_lt_self (Nat.succ_pos n) (by norm_num))
        (Char.ofNat (48 + (n + 1) % 10) :: acc),
        ih ((n + 1) / 10) (Nat.div_lt_self (Nat.succ_pos n) (by norm_num))
        [Char.ofNat (48 + (n + 1) % 10)]]
      simp

theorem digitChar_toNat (r : Nat) (h : r < 10) :
    (Char.ofNat (48 + r)).toNat = 48 + r := by
  interval_cases r <;> decide

theorem digitChar_isDigit (r : Nat) (h : r < 10) :
    (Char.ofNat (48 + r)).isDigit = true := by
  interval_cases r <;> decide

theorem natDigits_all_digits (m : Nat) :
    ∀ c ∈ natDigits m [], c.isDigit = true := by
  induction m using Nat.strong_induction_on with
  | _ m ih =>
    match m with
    | 0 => simp [natDigits]
    | n + 1 =>
      intro c hc
      rw [natDigits, natDigits_acc] at hc
      rcases List.mem_append.mp hc with h | h
      · exact ih ((n + 1) / 10) (Nat.div_lt_self (Nat.succ_pos n) (by norm_num)) c h
      · simp only [List.mem_singleton] at h
        rw [h]
        exact digitChar_isDigit _ (Nat.mod_lt _ (by norm_num))

theorem natDigits_ne_nil (n : Nat) : natDigits (n + 1) [] ≠ [] := by
  rw [natDigits, natDigits_acc]
  simp

def valFold (l : List Char) (s : Nat) : Nat :=
  l.foldl (fun acc c => acc * 10 + (c.toNat - 48)) s

theorem valFold_natDigits (m : Nat) : ∀ s : Nat,
    valFold (natDigits m []) s = s * 10 ^ (natDigits m []).length + m := by
  induction m using Nat.strong_induction_on with
  | _ m ih =>
    intro s
    match m with
    | 0 => simp [natDigits, valFold]
    | n + 1 =>
      have hlt : (n + 1) / 10 < n + 1 := Nat.div_lt_self (Nat.succ_pos n) (by norm_num)
      rw [natDigits, natDigits_acc]
      have hfold : valFold (natDigits ((n + 1) / 10) [] ++ [Char.ofNat (48 + (n + 1) % 10)]) s =
          valFold (natDigits ((n + 1) / 10) []) s * 10 + (n + 1) % 10 := by
        simp [valFold, List.foldl_append,
          digitChar_toNat _ (Nat.mod_lt _ (by norm_num : (0:Nat) < 10))]
      rw [hfold, ih _ hlt s]
      simp only [List.length_append, List.length_singleton]
      rw [pow_succ]
      have := Nat.div_add_mod (n + 1) 10
      ring_nf
      omega

theorem digit_not_whitespace (c : Char) (h : c.isDigit = true) :
    c.isWhitespace = false := by
  simp only [Char.isDigit, Bool.and_eq_true, decide_eq_true_eq] at h
  simp only [Char.isWhitespace, Bool.or_eq_false_iff, decide_eq_false_iff_not]
  refine ⟨⟨⟨?_, ?_⟩, ?_⟩, ?_⟩ <;> intro he <;> rw [he] at h <;> revert h <;> decide

theorem takeWhile_all (p : Char → Bool) : ∀ l : List Char,
    (∀ c ∈ l, p c = true) → l.takeWhile p = l := by
  intro l
  induction l with
  | nil => intro _; rfl
  | cons c t ih =>
    intro h
    rw [List.takeWhile_cons, h c (by simp)]
    simp [ih fun x hx => h x (by simp [hx])]

theorem digit_ne_minus (c : Char) (h : c.isDigit = true) : ¬ c = Char.ofNat 45 := by
  intro he; rw [he] at h; revert h; decide

theorem digit_ne_plus (c : Char) (h : c.isDigit = true) : ¬ c = Char.ofNat 43 := by
  intro he; rw [he] at h; revert h; decide

theorem jsParseInt_natToString (m : Nat) (h : 1 ≤ m) :
    jsParseInt (natToString m) = some (m : Int) := by
  obtain ⟨n, rfl⟩ : ∃ n, m = n + 1 := ⟨m - 1, by omega⟩
  have hdig := natDigits_all_digits (n + 1)
  obtain ⟨c, t, hct⟩ := List.exists_cons_of_ne_nil (natDigits_ne_nil n)
  have hc : c.isDigit = true := hdig c (by rw [hct]; simp)
  have hdata : (natToString (n + 1)).data = c :: t := by
    rw [natToString, if_neg (by omega)]
    exact hct
  rw [jsParseInt]
  simp only [hdata]
  rw [List.dropWhile_cons_of_neg (by rw [digit_not_whitespace c hc]; simp)]
  simp only [digit_ne_minus c hc, if_neg, digit_ne_plus c hc]
  rw [takeWhile_all _ _ (fun x hx => hdig x (by rw [hct]; exact hx))]
  rw [if_neg (by simp)]
  have hval : (c :: t).foldl (fun acc ch => acc * 10 + (ch.toNat - 48)) 0 = n + 1 := by
    have := valFold_natDigits (n + 1) 0
    rw [hct] at this
    simpa [valFold] using this
  simp [hval]

theorem jsParseInt_intToString (n : Int) (h : 1 ≤ n) :
    jsParseInt (intToString n) = some n := by
  rw [intToString, if_neg (by omega)]
  rw [jsParseInt_natToString n.natAbs (by omega)]
  congr 1
  omega

theorem getMaxId_cons (i l : String) (t : NodeType) (ct : Option CatKind)
    (p : Option String) (ts : Option (List String)) (cs : Option (List PromptEntry))
    (pid cid : Option String) (ev : Option EvalScore) (rest : List PromptEntry) :
    getMaxId (.mk i l t ct p ts cs pid cid ev :: rest) =
      max (match jsParseInt i with
            | some n => if n > 0 then n else 0
            | none => 0)
        (max (match cs with | some sub => getMaxId sub | none => 0) (getMaxId rest)) := by
  cases cs <;> simp [getMaxId]

theorem getMaxId_nonneg : ∀ es : List PromptEntry, 0 ≤ getMaxId es := by
  intro es
  induction es using getMaxId.induct with
  | case1 => simp [getMaxId]
  | case2 i l t ct p ts cs pid cid ev rest ihsub ihrest =>
    rw [getMaxId_cons]
    rcases hp : jsParseInt i with _ | n
    · cases cs <;> simp_all <;> omega
    · cases cs <;> simp_all <;> by_cases hn : n > 0 <;> simp_all <;> omega

theorem entryIds_cons (i l : String) (t : NodeType) (ct : Option CatKind)
    (p : Option String) (ts : Option (List String)) (cs : Option (List PromptEntry))
    (pid cid : Option String) (ev : Option EvalScore) (rest : List PromptEntry) :
    entryIds (.mk i l t ct p ts cs pid cid ev :: rest) =
      i :: ((match cs with | some sub => entryIds sub | none => []) ++ entryIds rest) := by
  cases cs <;> simp [entryIds]

theorem getMaxId_bound : ∀ (es : List PromptEntry) (j : String) (n : Int),
    j ∈ entryIds es → jsParseInt j = some n → n ≤ getMaxId es := by
  intro es
  induction es using getMaxId.induct with
  | case1 => intro j n hj; simp [entryIds] at hj
  | case2 i l t ct p ts cs pid cid ev rest ihsub ihrest =>
    intro j n hj hp
    rw [getMaxId_cons]
    rw [entryIds_cons] at hj
    simp only [List.mem_cons, List.mem_append] at hj
    have hsub0 : (0:Int) ≤ match cs with | some sub => getMaxId sub | none => 0 := by
      cases cs
      · simp
      · exact getMaxId_nonneg _
    have hrest0 := getMaxId_nonneg rest
    rcases hj with rfl | hj | hj
    · rw [hp]
      by_cases hn : n > 0
      · simp only [if_pos hn]
        omega
      · simp only [if_neg hn]
        omega
    · cases cs with
      | none => simp at hj
      | some sub =>
        have := ihsub j n hj hp
        simp only [] at this ⊢
        omega
    · have := ihrest j n hj hp
      omega

theorem findById_cons_hit (j l : String) (t : NodeType) (ct : Option CatKind)
    (p : Option String) (ts : Option (List String)) (cs : Option (List PromptEntry))
    (pid cid : Option String) (ev : Option EvalScore) (rest : List PromptEntry) :
    findById (.mk j l t ct p ts cs pid cid ev :: rest) j =
      some (.mk j l t ct p ts cs pid cid ev) := by
  cases cs <;> simp [findById]

theorem findById_cons_skip (i l j : String) (t : NodeType) (ct : Option CatKind)
    (p : Option String) (ts : Option (List String)) (cs : Option (List PromptEntry))
    (pid cid : Option String) (ev : Option EvalScore) (rest : List PromptEntry)
    (hne : ¬ i = j) (hsub : ∀ sub, cs = some sub → findById sub j = none) :
    findById (.mk i l t ct p ts cs pid cid ev :: rest) j = findById rest j := by
  cases cs with
  | none => simp [findById, hne]
  | some sub => simp [findById, hne, hsub sub rfl]

theorem findById_cons_descend (i l j : String) (t : NodeType) (ct : Option CatKind)
    (p : Option String) (ts : Option (List String)) (sub : List PromptEntry)
    (pid cid : Option String) (ev : Option EvalScore) (rest : List PromptEntry)
    (e : PromptEntry) (hne : ¬ i = j) (hfound : findById sub j = some e) :
    findById (.mk i l t ct p ts (some sub) pid cid ev :: rest) j = some e := by
  simp [findById, hne, hfound]

theorem findById_append_not_mem (j : String) : ∀ xs ys : List PromptEntry,
    j ∉ entryIds xs → findById (xs ++ ys) j = findById ys j := by
  intro xs
  induction xs with
  | nil => intro ys _; simp
  | cons e rest ih =>
    intro ys h
    cases e with
    | mk i l t ct p ts cs pid cid ev =>
      rw [entryIds_cons] at h
      simp only [List.mem_cons, List.mem_append] at h
      push_neg at h
      obtain ⟨hne, hsub0, hrest0⟩ := h
      rw [List.cons_append,
        findById_cons_skip i l j t ct p ts cs pid cid ev (rest ++ ys)
          (fun he => hne he.symm)
          (fun sub hs => (findById_eq_none_iff sub j).mpr
            (fun hc => hsub0 (by rw [hs]; simpa using hc)))]
      exact ih ys hrest0

theorem updateFirstById_go_cons_hit (j : String) (f : PromptEntry → PromptEntry)
    (l : String) (t : NodeType) (ct : Option CatKind) (p : Option String)
    (ts : Option (List String)) (cs : Option (List PromptEntry))
    (pid cid : Option String) (ev : Option EvalScore) (rest : List PromptEntry) :
    updateFirstById.go j f (.mk j l t ct p ts cs pid cid ev :: rest) =
      f (.mk j l t ct p ts cs pid cid ev) :: rest := by
  cases cs <;> simp [updateFirstById.go]

theorem updateFirstById_go_cons_skip (j : String) (f : PromptEntry → PromptEntry)
    (i l : String) (t : NodeType) (ct : Option CatKind) (p : Option String)
    (ts : Option (List String)) (cs : Option (List PromptEntry))
    (pid cid : Option String) (ev : Option EvalScore) (rest : List PromptEntry)
    (hne : ¬ i = j) (hsub : ∀ sub, cs = some sub → findById sub j = none) :
    updateFirstById.go j f (.mk i l t ct p ts cs pid cid ev :: rest) =
      .mk i l t ct p ts cs pid cid ev :: updateFirstById.go j f rest := by
  cases cs with
  | none => simp [updateFirstById.go, hne]
  | some sub => simp [updateFirstById.go, hne, hsub sub rfl]

theorem updateFirstById_append_not_mem (j : String) (f : PromptEntry → PromptEntry) :
    ∀ xs ys : List PromptEntry, j ∉ entryIds xs →
      updateFirstById (xs ++ ys) j f = xs ++ updateFirstById ys j f := by
  intro xs
  induction xs with
  | nil => intro ys _; simp [updateFirstById]
  | cons e rest ih =>
    intro ys h
    cases e with
    | mk i l t ct p ts cs pid cid ev =>
      rw [entryIds_cons] at h
      simp only [List.mem_cons, List.mem_append] at h
      push_neg at h
      obtain ⟨hne, hsub0, hrest0⟩ := h
      show updateFirstById.go j f _ = _
      rw [List.cons_append,
        updateFirstById_go_cons_skip j f i l t ct p ts cs pid cid ev (rest ++ ys)
          (fun he => hne he.symm)
          (fun sub hs => (findById_eq_none_iff sub j).mpr
            (fun hc => hsub0 (by rw [hs]; simpa using hc)))]
      have := ih ys hrest0
      rw [show updateFirstById (rest ++ ys) j f = updateFirstById.go j f (rest ++ ys) from rfl,
        show updateFirstById ys j f = updateFirstById.go j f ys from rfl] at this
      rw [this]
      simp [updateFirstById]

theorem entryIds_convert_prompts (ct : CatKind) (catId gid : String) (ps : List Prompt) :
    entryIds (ps.map (convertPromptEntry ct catId gid)) = ps.map Prompt.id := by
  induction ps with
  | nil => simp [entryIds]
  | cons p rest ih =>
    simp only [List.map_cons, convertPromptEntry, entryIds_cons, ih]
    simp

theorem filter_prompt_of_map (ct : CatKind) (catId gid : String) (ps : List Prompt) :
    (ps.map (convertPromptEntry ct catId gid)).filter (fun c => c.ntype = .prompt) =
      ps.map (convertPromptEntry ct catId gid) := by
  apply List.filter_eq_self.mpr
  intro e he
  simp only [List.mem_map] at he
  obtain ⟨p, _, rfl⟩ := he
  rfl

theorem filter_group_of_map (ct : CatKind) (catId : String) (gs : List PromptGroup) :
    (gs.map (convertGroupEntry ct catId)).filter (fun c => c.ntype = .group) =
      gs.map (convertGroupEntry ct catId) := by
  apply List.filter_eq_self.mpr
  intro e he
  simp only [List.mem_map] at he
  obtain ⟨g, _, rfl⟩ := he
  rfl

theorem serializePromptRecord_conv (ct : CatKind) (catId gid : String) (p : Prompt) :
    serializePromptRecord (convertPromptEntry ct catId gid p) = promptTrimEval p := rfl

theorem serialize_map_prompts (ct : CatKind) (catId gid : String) (ps : List Prompt) :
    (ps.map (convertPromptEntry ct catId gid)).map serializePromptRecord =
      ps.map promptTrimEval := by
  rw [← serializePrompt_level ct catId gid ps, filter_prompt_of_map]

theorem serialize_map_groups (ct : CatKind) (catId : String) (gs : List PromptGroup) :
    (gs.map (convertGroupEntry ct catId)).map serializeGroupRecord =
      gs.map groupTrimEval := by
  rw [← serializeGroup_level ct catId gs, filter_group_of_map]

theorem serializeUser_cons_user (e : PromptEntry) (rest : List PromptEntry)
    (h : e.categoryType = some CatKind.user) :
    serializeUser (e :: rest) = serializeCategoryRecord e :: serializeUser rest := by
  simp [serializeUser, List.filter_cons, h]

theorem c2_addPrompt_eq (sys pre post : List PromptCategory) (c : PromptCategory)
    (g0 : PromptGroup) (grest : List PromptGroup) (label body0 : String)
    (tags : List String) (ev : EvalOutcome) (now : String)
    (hsys : ∀ x ∈ sys, x.ctype = CatKind.system)
    (huser : ∀ x ∈ pre ++ c :: post, x.ctype = CatKind.user)
    (hg : c.groups = g0 :: grest)
    (hskip : c.id ∉ entryIds (convertJsonToEntries sys ++ convertJsonToEntries pre)) :
    addPrompt (loadedFrom sys (pre ++ c :: post)) label body0 tags (some c.id) ev now =
      (loadedFrom sys ((pre ++
          { c with groups :=
              { g0 with prompts := g0.prompts ++
                  [{ id := intToString ((loadedFrom sys (pre ++ c :: post)).nextId),
                     label := label, prompt := cleanPromptText body0,
                     tags := tags }] } :: grest } :: post).map catTrimEval),
       some (intToString ((loadedFrom sys (pre ++ c :: post)).nextId))) := by
  have hcu : c.ctype = CatKind.user := huser c (by simp)
  set nid := (loadedFrom sys (pre ++ c :: post)).nextId with hnid
  set newId := intToString nid with hnewId
  set body1 := cleanPromptText body0 with hbody1
  set newRec : Prompt := { id := newId, label := label, prompt := body1, tags := tags }
    with hnewRec
  set cNew : PromptCategory :=
    { c with groups := { g0 with prompts := g0.prompts ++ [newRec] } :: grest } with hcNew
  -- the loaded forest
  have hP : (loadedFrom sys (pre ++ c :: post)).prompts =
      convertJsonToEntries sys ++ (convertJsonToEntries pre ++
        convertCategoryEntry c :: convertJsonToEntries post) := by
    show convertJsonToEntries (sys ++ (pre ++ c :: post)) = _
    rw [convertJson_append, convertJson_append]
    simp [convertJsonToEntries]
  rw [entryIds_append] at hskip
  have hs1 : c.id ∉ entryIds (convertJsonToEntries sys) := fun h => hskip (by simp [h])
  have hs2 : c.id ∉ entryIds (convertJsonToEntries pre) := fun h => hskip (by simp [h])
  have hcatc : convertCategoryEntry c =
      .mk c.id c.label .category (some c.ctype) none none
        (some (convertGroupEntry c.ctype c.id g0 ::
          grest.map (convertGroupEntry c.ctype c.id))) none none none := by
    rw [convertCategoryEntry, hg]
    simp
  -- findById resolves the parent
  have hfind : findById (loadedFrom sys (pre ++ c :: post)).prompts c.id =
      some (convertCategoryEntry c) := by
    rw [hP, findById_append_not_mem _ _ _ hs1, findById_append_not_mem _ _ _ hs2, hcatc,
      findById_cons_hit]
  -- the new prompt node
  set np := mkNewPromptEntry newId label body1 tags (some c.id) ev now with hnp
  -- the attach step
  have hattach : attachNewPrompt (loadedFrom sys (pre ++ c :: post)).prompts
      (some c.id) np (nid + 1) =
      (updateFirstById (loadedFrom sys (pre ++ c :: post)).prompts c.id
        (fun par => par.setChildren (some (pushToFirstGroup (par.children.getD [])
          (np.setCategoryType par.categoryType)))), nid + 1) := by
    rw [attachNewPrompt, hfind]
    rw [hcatc]
    simp only [PromptEntry.ntype, PromptEntry.children, Option.getD_some]
    rw [List.find?_cons_of_pos _ (by rw [convertGroupEntry]; simp [PromptEntry.ntype])]
  -- the updated category node
  set newG : PromptEntry :=
    .mk g0.id g0.label .group (some c.ctype) none none
      (some (g0.prompts.map (convertPromptEntry c.ctype c.id g0.id) ++
        [np.setCategoryType (some c.ctype)])) (some c.id) (some c.id) none with hnewG
  set newCatE : PromptEntry :=
    .mk c.id c.label .category (some c.ctype) none none
      (some (newG :: grest.map (convertGroupEntry c.ctype c.id))) none none none
    with hnewCatE
  have hfupd : (convertCategoryEntry c).setChildren
      (some (pushToFirstGroup ((convertCategoryEntry c).children.getD [])
        (np.setCategoryType (convertCategoryEntry c).categoryType))) = newCatE := by
    rw [hcatc]
    simp only [PromptEntry.setChildren, PromptEntry.children, PromptEntry.categoryType,
      Option.getD_some]
    rw [pushToFirstGroup]
    rw [if_pos (by rw [convertGroupEntry]; simp [PromptEntry.ntype])]
    rw [hnewCatE, hnewG, convertGroupEntry]
    simp [PromptEntry.setChildren, PromptEntry.children]
  -- the updated forest
  have hupd : updateFirstById (loadedFrom sys (pre ++ c :: post)).prompts c.id
      (fun par => par.setChildren (some (pushToFirstGroup (par.children.getD [])
        (np.setCategoryType par.categoryType)))) =
      convertJsonToEntries sys ++ (convertJsonToEntries pre ++
        newCatE :: convertJsonToEntries post) := by
    rw [hP, updateFirstById_append_not_mem _ _ _ _ hs1,
      updateFirstById_append_not_mem _ _ _ _ hs2, hcatc]
    show _ ++ (_ ++ updateFirstById.go _ _ _) = _
    rw [updateFirstById_go_cons_hit]
    rw [← hcatc, hfupd]
  -- serialization of the updated forest
  have hserG : serializeGroupRecord newG =
      groupTrimEval { g0 with prompts := g0.prompts ++ [newRec] } := by
    rw [hnewG, serializeGroupRecord]
    simp only [PromptEntry.id, PromptEntry.label, PromptEntry.children, Option.getD_some]
    rw [List.filter_append, filter_prompt_of_map]
    have hnp' : (np.setCategoryType (some c.ctype)).ntype = .prompt := by
      rw [hnp, mkNewPromptEntry]
      simp [PromptEntry.setCategoryType, PromptEntry.ntype]
    rw [List.filter_cons, if_pos (by simp [hnp'])]
    simp only [List.filter_nil, List.map_append, serialize_map_prompts]
    rw [groupTrimEval]
    simp only [List.map_append, List.map_cons, List.map_nil]
    rw [show serializePromptRecord (np.setCategoryType (some c.ctype)) = newRec from by
        rw [hnp, mkNewPromptEntry, hnewRec]; rfl,
      show promptTrimEval newRec = newRec from by rw [hnewRec]; rfl]
  have hserC : serializeCategoryRecord newCatE = catTrimEval cNew := by
    rw [hnewCatE, serializeCategoryRecord]
    simp only [PromptEntry.id, PromptEntry.label, PromptEntry.children, Option.getD_some]
    rw [List.filter_cons, if_pos (by rw [hnewG]; simp [PromptEntry.ntype]),
      filter_group_of_map]
    simp only [List.map_cons, serialize_map_groups, hserG]
    rw [catTrimEval, hcNew]
    simp [hcu]
  have hserAll : serializeUser (convertJsonToEntries sys ++ (convertJsonToEntries pre ++
      newCatE :: convertJsonToEntries post)) =
      (pre ++ cNew :: post).map catTrimEval := by
    rw [serializeUser_append, serializeUser_append, serializeUser_system_nil sys hsys]
    rw [serializeUser_cons_user _ _ (by rw [hnewCatE]; simp [PromptEntry.categoryType, hcu])]
    rw [serializeUser_convert, serializeUser_convert, hserC]
    have hfp : pre.filter (fun x => x.ctype = CatKind.user) = pre :=
      List.filter_eq_self.mpr (fun x hx => by
        simp [huser x (by simp [hx])])
    have hfq : post.filter (fun x => x.ctype = CatKind.user) = post :=
      List.filter_eq_self.mpr (fun x hx => by
        simp [huser x (by simp [hx])])
    rw [hfp, hfq]
    simp
  -- assemble
  rw [addPrompt]
  simp only [← hbody1, ← hnid, ← hnewId, ← hnp, hattach, hupd]
  rw [saveAndReload]
  simp only []
  rw [hserAll]
  rfl

/-- The parent-is-a-category-with-a-group case of the C2 claim: the new
prompt is pushed onto the category's first group and survives the
save/reload round trip. -/
theorem c2_category_with_group_case (sys pre post : List PromptCategory)
    (c : PromptCategory) (g0 : PromptGroup) (grest : List PromptGroup)
    (label body0 : String) (tags : List String) (ev : EvalOutcome) (now : String)
    (hsys : ∀ x ∈ sys, x.ctype = CatKind.system)
    (huser : ∀ x ∈ pre ++ c :: post, x.ctype = CatKind.user)
    (hg : c.groups = g0 :: grest)
    (hskip : c.id ∉ entryIds (convertJsonToEntries sys ++ convertJsonToEntries pre)) :
    (addPrompt (loadedFrom sys (pre ++ c :: post)) label body0 tags (some c.id) ev
        now).2 = some (intToString (loadedFrom sys (pre ++ c :: post)).nextId) ∧
    jsParseInt (intToString (loadedFrom sys (pre ++ c :: post)).nextId) =
      some (loadedFrom sys (pre ++ c :: post)).nextId ∧
    (∀ j ∈ entryIds (loadedFrom sys (pre ++ c :: post)).prompts, ∀ n : Int,
      jsParseInt j = some n → n < (loadedFrom sys (pre ++ c :: post)).nextId) ∧
    (∃ e, findById (addPrompt (loadedFrom sys (pre ++ c :: post)) label body0 tags
          (some c.id) ev now).1.prompts
        (intToString (loadedFrom sys (pre ++ c :: post)).nextId) = some e ∧
      e.label = label ∧ e.prompt = some (cleanPromptText body0) ∧ e.tags = some tags) := by
  set nid := (loadedFrom sys (pre ++ c :: post)).nextId with hniddef
  set newId := intToString nid with hnewId
  set body1 := cleanPromptText body0 with hbody1
  set newRec : Prompt := { id := newId, label := label, prompt := body1, tags := tags }
    with hnewRec
  set cNew : PromptCategory :=
    { c with groups := { g0 with prompts := g0.prompts ++ [newRec] } :: grest } with hcNew
  have heq := c2_addPrompt_eq sys pre post c g0 grest label body0 tags ev now
    hsys huser hg hskip
  rw [← hniddef, ← hnewId, ← hbody1, ← hnewRec, ← hcNew] at heq
  have hnid : nid = getMaxId (loadedFrom sys (pre ++ c :: post)).prompts + 1 := rfl
  have hnn : 0 ≤ getMaxId (loadedFrom sys (pre ++ c :: post)).prompts :=
    getMaxId_nonneg _
  have hparse : jsParseInt newId = some nid := by
    rw [hnewId]
    exact jsParseInt_intToString nid (by omega)
  have hbound : ∀ j ∈ entryIds (loadedFrom sys (pre ++ c :: post)).prompts, ∀ n : Int,
      jsParseInt j = some n → n < nid := by
    intro j hj n hp
    have := getMaxId_bound _ j n hj hp
    omega
  have hfresh : ∀ j ∈ entryIds (loadedFrom sys (pre ++ c :: post)).prompts,
      ¬ newId = j := by
    intro j hj he
    have := hbound j hj nid (by rw [← he]; exact hparse)
    omega
  refine ⟨by rw [heq], hparse, hbound, ?_⟩
  -- the reloaded forest
  have hP : (loadedFrom sys (pre ++ c :: post)).prompts =
      convertJsonToEntries sys ++ (convertJsonToEntries pre ++
        convertCategoryEntry c :: convertJsonToEntries post) := by
    show convertJsonToEntries (sys ++ (pre ++ c :: post)) = _
    rw [convertJson_append, convertJson_append]
    simp [convertJsonToEntries]
  have hcatc : convertCategoryEntry c =
      .mk c.id c.label .category (some c.ctype) none none
        (some (convertGroupEntry c.ctype c.id g0 ::
          grest.map (convertGroupEntry c.ctype c.id))) none none none := by
    rw [convertCategoryEntry, hg]
    simp
  have hIds : entryIds (loadedFrom sys (pre ++ c :: post)).prompts =
      entryIds (convertJsonToEntries sys) ++ (entryIds (convertJsonToEntries pre) ++
        c.id :: ((g0.id :: (g0.prompts.map Prompt.id ++
          entryIds (grest.map (convertGroupEntry c.ctype c.id)))) ++
          entryIds (convertJsonToEntries post))) := by
    rw [hP, entryIds_append, entryIds_append, hcatc, entryIds_cons]
    simp only []
    rw [convertGroupEntry, entryIds_cons]
    simp only []
    rw [entryIds_convert_prompts]
  have hsys_not : newId ∉ entryIds (convertJsonToEntries sys) := by
    intro h
    exact hfresh newId (by rw [hIds]; simp [h]) rfl
  have hpre_not : newId ∉ entryIds (convertJsonToEntries pre) := by
    intro h
    exact hfresh newId (by rw [hIds]; simp [h]) rfl
  have hps_not : newId ∉ entryIds (g0.prompts.map
      (convertPromptEntry c.ctype c.id g0.id)) := by
    rw [entryIds_convert_prompts]
    intro h
    exact hfresh newId (by rw [hIds]; simp [h]) rfl
  have hcne : ¬ c.id = newId := by
    intro h
    exact hfresh c.id (by rw [hIds]; simp) h.symm
  have hgne : ¬ g0.id = newId := by
    intro h
    exact hfresh g0.id (by rw [hIds]; simp) h.symm
  -- the final forest
  have hP2 : (loadedFrom sys ((pre ++ cNew :: post).map catTrimEval)).prompts =
      convertJsonToEntries sys ++ (convertJsonToEntries pre ++
        convertCategoryEntry cNew :: convertJsonToEntries post) := by
    show convertJsonToEntries (sys ++ (pre ++ cNew :: post).map catTrimEval) = _
    rw [convertJson_append, convert_trim, convertJson_append]
    simp [convertJsonToEntries]
  have hcatNew : convertCategoryEntry cNew =
      .mk c.id c.label .category (some c.ctype) none none
        (some (convertGroupEntry c.ctype c.id
            { g0 with prompts := g0.prompts ++ [newRec] } ::
          grest.map (convertGroupEntry c.ctype c.id))) none none none := by
    rw [convertCategoryEntry, hcNew]
    simp
  have hgNew : convertGroupEntry c.ctype c.id
      { g0 with prompts := g0.prompts ++ [newRec] } =
      .mk g0.id g0.label .group (some c.ctype) none none
        (some (g0.prompts.map (convertPromptEntry c.ctype c.id g0.id) ++
          [convertPromptEntry c.ctype c.id g0.id newRec])) (some c.id) (some c.id)
        none := by
    rw [convertGroupEntry]
    simp
  refine ⟨convertPromptEntry c.ctype c.id g0.id newRec, ?_, rfl, ?_, rfl⟩
  · rw [heq]
    rw [hP2, findById_append_not_mem _ _ _ hsys_not,
      findById_append_not_mem _ _ _ hpre_not, hcatNew]
    refine findById_cons_descend _ _ _ _ _ _ _ _ _ _ _ _ _ hcne ?_
    rw [hgNew]
    refine findById_cons_descend _ _ _ _ _ _ _ _ _ _ _ _ _ hgne ?_
    rw [findById_append_not_mem _ _ _ hps_not]
    have : convertPromptEntry c.ctype c.id g0.id newRec =
        .mk newId label .prompt (some c.ctype) (some body1) (some tags) none
          (some g0.id) (some c.id) none := by
      rw [convertPromptEntry, hnewRec]
    rw [this, findById_cons_hit]
  · rw [convertPromptEntry, hnewRec]
    rfl

/-- The system category of the C2 counterexample. -/
def c2sysCat : PromptCategory :=
  { id := "s1", label := "System", ctype := CatKind.system,
    groups := [{ id := "g1", label := "General",
                 prompts := [{ id := "1", label := "P", prompt := "p", tags := [] }] }] }

/-- Claim C2, counterexample: with a resolvable `parentId` that denotes a
system category, `addPrompt` still returns the fresh id `"2"`, but the new
prompt is attached under the read-only system category, the save persists
only user categories, and the immediate reload rebuilds the forest from the
untouched documents - so `findById` on the returned id yields nothing. -/
theorem addPrompt_system_parent_new_prompt_lost :
    (addPrompt (loadedFrom [c2sysCat] []) "L" "B" [] (some "s1")
        EvalOutcome.undef "t").2 = some "2" ∧
    findById (addPrompt (loadedFrom [c2sysCat] []) "L" "B" [] (some "s1")
        EvalOutcome.undef "t").1.prompts "2" = none := by
  constructor
  · simp [addPrompt, loadedFrom, convertJsonToEntries, convertCategoryEntry,
      convertGroupEntry, convertPromptEntry, getMaxId, jsParseInt, intToString,
      natToString, natDigits, c2sysCat]
  · simp [addPrompt, loadedFrom, saveAndReload, attachNewPrompt, findById,
      updateFirstById, updateFirstById.go, pushToFirstGroup, mkNewPromptEntry,
      serializeUser, serializeCategoryRecord, serializeGroupRecord,
      serializePromptRecord, convertJsonToEntries, convertCategoryEntry,
      convertGroupEntry, convertPromptEntry, getMaxId, jsParseInt, intToString,
      natToString, natDigits, c2sysCat, PromptEntry.setChildren,
      PromptEntry.setCategoryType, PromptEntry.ntype, PromptEntry.children,
      PromptEntry.categoryType, PromptEntry.id, PromptEntry.label,
      PromptEntry.prompt, PromptEntry.tags, entryIds]

def c2uGroup : PromptGroup :=
  { id := "3", label := "Drafts",
    prompts := [{ id := "4", label := "A", prompt := "a", tags := ["x"] }] }

def c2userCat : PromptCategory :=
  { id := "2", label := "Mine", ctype := CatKind.user, groups := [c2uGroup] }

theorem updateFirstById_go_cons_descend (j : String) (f : PromptEntry → PromptEntry)
    (i l : String) (t : NodeType) (ct : Option CatKind) (p : Option String)
    (ts : Option (List String)) (sub : List PromptEntry) (pid cid : Option String)
    (ev : Option EvalScore) (rest : List PromptEntry)
    (hne : ¬ i = j) (hsome : (findById sub j).isSome = true) :
    updateFirstById.go j f (.mk i l t ct p ts (some sub) pid cid ev :: rest) =
      (PromptEntry.mk i l t ct p ts (some sub) pid cid ev).setChildren
        (some (updateFirstById.go j f sub)) :: rest := by
  rw [updateFirstById.go.eq_def]
  simp [hne, hsome]

theorem entryIds_convert_groups_cons (ct : CatKind) (cid : String) (g : PromptGroup)
    (gs : List PromptGroup) :
    entryIds ((g :: gs).map (convertGroupEntry ct cid)) =
      g.id :: (g.prompts.map Prompt.id ++ entryIds (gs.map (convertGroupEntry ct cid))) := by
  simp only [List.map_cons, convertGroupEntry, entryIds_cons]
  rw [entryIds_convert_prompts]

theorem intToString_inj_ge_one (a b : Int) (ha : 1 ≤ a) (hb : 1 ≤ b)
    (h : intToString a = intToString b) : a = b := by
  have h1 := jsParseInt_intToString a ha
  rw [h, jsParseInt_intToString b hb] at h1
  exact (Option.some_inj.mp h1).symm

theorem c2_addPrompt_eq_nogroup (sys pre post : List PromptCategory) (c : PromptCategory)
    (label body0 : String) (tags : List String) (ev : EvalOutcome) (now : String)
    (hsys : ∀ x ∈ sys, x.ctype = CatKind.system)
    (huser : ∀ x ∈ pre ++ c :: post, x.ctype = CatKind.user)
    (hg : c.groups = [])
    (hskip : c.id ∉ entryIds (convertJsonToEntries sys ++ convertJsonToEntries pre)) :
    addPrompt (loadedFrom sys (pre ++ c :: post)) label body0 tags (some c.id) ev now =
      (loadedFrom sys ((pre ++
          { c with groups :=
              [{ id := intToString ((loadedFrom sys (pre ++ c :: post)).nextId + 1),
                 label := "Default",
                 prompts := [{ id := intToString ((loadedFrom sys (pre ++ c :: post)).nextId),
                               label := label, prompt := cleanPromptText body0,
                               tags := tags }] }] } :: post).map catTrimEval),
       some (intToString ((loadedFrom sys (pre ++ c :: post)).nextId))) := by
  have hcu : c.ctype = CatKind.user := huser c (by simp)
  set nid := (loadedFrom sys (pre ++ c :: post)).nextId with hniddef
  set newId := intToString nid with hnewId
  set gid := intToString (nid + 1) with hgid
  set body1 := cleanPromptText body0 with hbody1
  set newRec : Prompt := { id := newId, label := label, prompt := body1, tags := tags }
    with hnewRec
  set dgJson : PromptGroup := { id := gid, label := "Default", prompts := [newRec] }
    with hdgJson
  set cNew : PromptCategory := { c with groups := [dgJson] } with hcNew
  have hP : (loadedFrom sys (pre ++ c :: post)).prompts =
      convertJsonToEntries sys ++ (convertJsonToEntries pre ++
        convertCategoryEntry c :: convertJsonToEntries post) := by
    show convertJsonToEntries (sys ++ (pre ++ c :: post)) = _
    rw [convertJson_append, convertJson_append]
    simp [convertJsonToEntries]
  rw [entryIds_append] at hskip
  have hs1 : c.id ∉ entryIds (convertJsonToEntries sys) := fun h => hskip (by simp [h])
  have hs2 : c.id ∉ entryIds (convertJsonToEntries pre) := fun h => hskip (by simp [h])
  have hcatc : convertCategoryEntry c =
      .mk c.id c.label .category (some c.ctype) none none (some []) none none none := by
    rw [convertCategoryEntry, hg]
    simp
  have hfind : findById (loadedFrom sys (pre ++ c :: post)).prompts c.id =
      some (convertCategoryEntry c) := by
    rw [hP, findById_append_not_mem _ _ _ hs1, findById_append_not_mem _ _ _ hs2, hcatc,
      findById_cons_hit]
  set np := mkNewPromptEntry newId label body1 tags (some c.id) ev now with hnp
  set dG : PromptEntry :=
    .mk gid "Default" .group (some c.ctype) none none
      (some [np.setCategoryType (some c.ctype)]) (some c.id) none none with hdG
  have hattach : attachNewPrompt (loadedFrom sys (pre ++ c :: post)).prompts
      (some c.id) np (nid + 1) =
      (updateFirstById (loadedFrom sys (pre ++ c :: post)).prompts c.id
        (fun par => par.setChildren (some ((par.children.getD []) ++ [dG]))),
       nid + 1 + 1) := by
    rw [attachNewPrompt, hfind]
    rw [hcatc]
    simp only [PromptEntry.ntype, PromptEntry.children, PromptEntry.categoryType,
      Option.getD_some, List.find?_nil]
  set newCatE : PromptEntry :=
    .mk c.id c.label .category (some c.ctype) none none (some [dG]) none none none
    with hnewCatE
  have hfupd : (convertCategoryEntry c).setChildren
      (some ((convertCategoryEntry c).children.getD [] ++ [dG])) = newCatE := by
    rw [hcatc]
    simp [PromptEntry.setChildren, PromptEntry.children]
  have hupd : updateFirstById (loadedFrom sys (pre ++ c :: post)).prompts c.id
      (fun par => par.setChildren (some ((par.children.getD []) ++ [dG]))) =
      convertJsonToEntries sys ++ (convertJsonToEntries pre ++
        newCatE :: convertJsonToEntries post) := by
    rw [hP, updateFirstById_append_not_mem _ _ _ _ hs1,
      updateFirstById_append_not_mem _ _ _ _ hs2, hcatc]
    show _ ++ (_ ++ updateFirstById.go _ _ _) = _
    rw [updateFirstById_go_cons_hit]
    rw [← hcatc, hfupd]
  have hserG : serializeGroupRecord dG = groupTrimEval dgJson := by
    rw [hdG, serializeGroupRecord]
    simp only [PromptEntry.id, PromptEntry.label, PromptEntry.children, Option.getD_some]
    have hnp' : (np.setCategoryType (some c.ctype)).ntype = .prompt := by
      rw [hnp, mkNewPromptEntry]
      simp [PromptEntry.setCategoryType, PromptEntry.ntype]
    rw [List.filter_cons, if_pos (by simp [hnp'])]
    simp only [List.filter_nil, List.map_cons, List.map_nil]
    rw [show serializePromptRecord (np.setCategoryType (some c.ctype)) = newRec from by
        rw [hnp, mkNewPromptEntry, hnewRec]; rfl]
    rw [groupTrimEval, hdgJson]
    simp only [List.map_cons, List.map_nil]
    rw [show promptTrimEval newRec = newRec from by rw [hnewRec]; rfl]
  have hserC : serializeCategoryRecord newCatE = catTrimEval cNew := by
    rw [hnewCatE, serializeCategoryRecord]
    simp only [PromptEntry.id, PromptEntry.label, PromptEntry.children, Option.getD_some]
    rw [List.filter_cons, if_pos (by rw [hdG]; simp [PromptEntry.ntype])]
    simp only [List.filter_nil, List.map_cons, List.map_nil, hserG]
    rw [catTrimEval, hcNew]
    simp [hcu]
  have hserAll : serializeUser (convertJsonToEntries sys ++ (convertJsonToEntries pre ++
      newCatE :: convertJsonToEntries post)) =
      (pre ++ cNew :: post).map catTrimEval := by
    rw [serializeUser_append, serializeUser_append, serializeUser_system_nil sys hsys]
    rw [serializeUser_cons_user _ _ (by rw [hnewCatE]; simp [PromptEntry.categoryType, hcu])]
    rw [serializeUser_convert, serializeUser_convert, hserC]
    have hfp : pre.filter (fun x => x.ctype = CatKind.user) = pre :=
      List.filter_eq_self.mpr (fun x hx => by
        simp [huser x (by simp [hx])])
    have hfq : post.filter (fun x => x.ctype = CatKind.user) = post :=
      List.filter_eq_self.mpr (fun x hx => by
        simp [huser x (by simp [hx])])
    rw [hfp, hfq]
    simp
  rw [addPrompt]
  simp only [← hbody1, ← hniddef, ← hnewId, ← hnp, hattach, hupd]
  rw [saveAndReload]
  simp only []
  rw [hserAll]
  rfl

theorem c2_addPrompt_eq_group (sys pre post : List PromptCategory) (c : PromptCategory)
    (gpre : List PromptGroup) (g : PromptGroup) (gpost : List PromptGroup)
    (label body0 : String) (tags : List String) (ev : EvalOutcome) (now : String)
    (hsys : ∀ x ∈ sys, x.ctype = CatKind.system)
    (huser : ∀ x ∈ pre ++ c :: post, x.ctype = CatKind.user)
    (hg : c.groups = gpre ++ g :: gpost)
    (hskip : g.id ∉ entryIds (convertJsonToEntries sys ++ convertJsonToEntries pre))
    (hcg : ¬ c.id = g.id)
    (hgpre : g.id ∉ entryIds (gpre.map (convertGroupEntry c.ctype c.id))) :
    addPrompt (loadedFrom sys (pre ++ c :: post)) label body0 tags (some g.id) ev now =
      (loadedFrom sys ((pre ++
          { c with groups := gpre ++
              { g with prompts := g.prompts ++
                  [{ id := intToString ((loadedFrom sys (pre ++ c :: post)).nextId),
                     label := label, prompt := cleanPromptText body0,
                     tags := tags }] } :: gpost } :: post).map catTrimEval),
       some (intToString ((loadedFrom sys (pre ++ c :: post)).nextId))) := by
  have hcu : c.ctype = CatKind.user := huser c (by simp)
  set nid := (loadedFrom sys (pre ++ c :: post)).nextId with hniddef
  set newId := intToString nid with hnewId
  set body1 := cleanPromptText body0 with hbody1
  set newRec : Prompt := { id := newId, label := label, prompt := body1, tags := tags }
    with hnewRec
  set cNew : PromptCategory :=
    { c with groups := gpre ++ { g with prompts := g.prompts ++ [newRec] } :: gpost }
    with hcNew
  have hP : (loadedFrom sys (pre ++ c :: post)).prompts =
      convertJsonToEntries sys ++ (convertJsonToEntries pre ++
        convertCategoryEntry c :: convertJsonToEntries post) := by
    show convertJsonToEntries (sys ++ (pre ++ c :: post)) = _
    rw [convertJson_append, convertJson_append]
    simp [convertJsonToEntries]
  rw [entryIds_append] at hskip
  have hs1 : g.id ∉ entryIds (convertJsonToEntries sys) := fun h => hskip (by simp [h])
  have hs2 : g.id ∉ entryIds (convertJsonToEntries pre) := fun h => hskip (by simp [h])
  have hcatc : convertCategoryEntry c =
      .mk c.id c.label .category (some c.ctype) none none
        (some (gpre.map (convertGroupEntry c.ctype c.id) ++
          convertGroupEntry c.ctype c.id g ::
            gpost.map (convertGroupEntry c.ctype c.id))) none none none := by
    rw [convertCategoryEntry, hg]
    simp
  have hgE : convertGroupEntry c.ctype c.id g =
      .mk g.id g.label .group (some c.ctype) none none
        (some (g.prompts.map (convertPromptEntry c.ctype c.id g.id)))
        (some c.id) (some c.id) none := by
    rw [convertGroupEntry]
  have hfindg : findById (gpre.map (convertGroupEntry c.ctype c.id) ++
      convertGroupEntry c.ctype c.id g ::
        gpost.map (convertGroupEntry c.ctype c.id)) g.id =
      some (convertGroupEntry c.ctype c.id g) := by
    rw [findById_append_not_mem _ _ _ hgpre, hgE, findById_cons_hit]
  have hfind : findById (loadedFrom sys (pre ++ c :: post)).prompts g.id =
      some (convertGroupEntry c.ctype c.id g) := by
    rw [hP, findById_append_not_mem _ _ _ hs1, findById_append_not_mem _ _ _ hs2, hcatc]
    exact findById_cons_descend _ _ _ _ _ _ _ _ _ _ _ _ _ hcg hfindg
  set np := mkNewPromptEntry newId label body1 tags (some g.id) ev now with hnp
  have hattach : attachNewPrompt (loadedFrom sys (pre ++ c :: post)).prompts
      (some g.id) np (nid + 1) =
      (updateFirstById (loadedFrom sys (pre ++ c :: post)).prompts g.id
        (fun par => par.setChildren (some ((par.children.getD [])
          ++ [np.setCategoryType par.categoryType]))), nid + 1) := by
    rw [attachNewPrompt, hfind]
    rw [hgE]
    simp only [PromptEntry.ntype]
  set gMod : PromptEntry :=
    .mk g.id g.label .group (some c.ctype) none none
      (some (g.prompts.map (convertPromptEntry c.ctype c.id g.id) ++
        [np.setCategoryType (some c.ctype)])) (some c.id) (some c.id) none with hgMod
  set newCatE : PromptEntry :=
    .mk c.id c.label .category (some c.ctype) none none
      (some (gpre.map (convertGroupEntry c.ctype c.id) ++
        gMod :: gpost.map (convertGroupEntry c.ctype c.id))) none none none
    with hnewCatE
  have hupd : updateFirstById (loadedFrom sys (pre ++ c :: post)).prompts g.id
      (fun par => par.setChildren (some ((par.children.getD [])
        ++ [np.setCategoryType par.categoryType]))) =
      convertJsonToEntries sys ++ (convertJsonToEntries pre ++
        newCatE :: convertJsonToEntries post) := by
    rw [hP, updateFirstById_append_not_mem _ _ _ _ hs1,
      updateFirstById_append_not_mem _ _ _ _ hs2, hcatc]
    show _ ++ (_ ++ updateFirstById.go _ _ _) = _
    rw [updateFirstById_go_cons_descend _ _ _ _ _ _ _ _ _ _ _ _ _ hcg
      (by rw [hfindg]; rfl)]
    have hinner : updateFirstById.go g.id
        (fun par => par.setChildren (some ((par.children.getD [])
          ++ [np.setCategoryType par.categoryType])))
        (gpre.map (convertGroupEntry c.ctype c.id) ++
          convertGroupEntry c.ctype c.id g ::
            gpost.map (convertGroupEntry c.ctype c.id)) =
        gpre.map (convertGroupEntry c.ctype c.id) ++
          gMod :: gpost.map (convertGroupEntry c.ctype c.id) := by
      have hap := updateFirstById_append_not_mem g.id
        (fun par => par.setChildren (some ((par.children.getD [])
          ++ [np.setCategoryType par.categoryType])))
        (gpre.map (convertGroupEntry c.ctype c.id))
        (convertGroupEntry c.ctype c.id g ::
          gpost.map (convertGroupEntry c.ctype c.id)) hgpre
      rw [show updateFirstById (gpre.map (convertGroupEntry c.ctype c.id) ++
          convertGroupEntry c.ctype c.id g ::
            gpost.map (convertGroupEntry c.ctype c.id)) g.id
          (fun par => par.setChildren (some ((par.children.getD [])
            ++ [np.setCategoryType par.categoryType]))) =
          updateFirstById.go g.id
            (fun par => par.setChildren (some ((par.children.getD [])
              ++ [np.setCategoryType par.categoryType])))
            (gpre.map (convertGroupEntry c.ctype c.id) ++
              convertGroupEntry c.ctype c.id g ::
                gpost.map (convertGroupEntry c.ctype c.id)) from rfl] at hap
      rw [hap]
      congr 1
      show updateFirstById.go _ _ _ = _
      rw [hgE, updateFirstById_go_cons_hit]
      rw [hgMod]
      simp [PromptEntry.setChildren, PromptEntry.children, PromptEntry.categoryType]
    rw [hinner]
    rw [hnewCatE]
    simp [PromptEntry.setChildren]
  have hserG : serializeGroupRecord gMod =
      groupTrimEval { g with prompts := g.prompts ++ [newRec] } := by
    rw [hgMod, serializeGroupRecord]
    simp only [PromptEntry.id, PromptEntry.label, PromptEntry.children, Option.getD_some]
    rw [List.filter_append, filter_prompt_of_map]
    have hnp' : (np.setCategoryType (some c.ctype)).ntype = .prompt := by
      rw [hnp, mkNewPromptEntry]
      simp [PromptEntry.setCategoryType, PromptEntry.ntype]
    rw [List.filter_cons, if_pos (by simp [hnp'])]
    simp only [List.filter_nil, List.map_append, serialize_map_prompts]
    rw [groupTrimEval]
    simp only [List.map_append, List.map_cons, List.map_nil]
    rw [show serializePromptRecord (np.setCategoryType (some c.ctype)) = newRec from by
        rw [hnp, mkNewPromptEntry, hnewRec]; rfl,
      show promptTrimEval newRec = newRec from by rw [hnewRec]; rfl]
  have hserC : serializeCategoryRecord newCatE = catTrimEval cNew := by
    rw [hnewCatE, serializeCategoryRecord]
    simp only [PromptEntry.id, PromptEntry.label, PromptEntry.children, Option.getD_some]
    rw [List.filter_append, filter_group_of_map,
      List.filter_cons, if_pos (by rw [hgMod]; simp [PromptEntry.ntype]),
      filter_group_of_map]
    simp only [List.map_append, List.map_cons, serialize_map_groups, hserG]
    rw [catTrimEval, hcNew]
    simp [hcu]
  have hserAll : serializeUser (convertJsonToEntries sys ++ (convertJsonToEntries pre ++
      newCatE :: convertJsonToEntries post)) =
      (pre ++ cNew :: post).map catTrimEval := by
    rw [serializeUser_append, serializeUser_append, serializeUser_system_nil sys hsys]
    rw [serializeUser_cons_user _ _ (by rw [hnewCatE]; simp [PromptEntry.categoryType, hcu])]
    rw [serializeUser_convert, serializeUser_convert, hserC]
    have hfp : pre.filter (fun x => x.ctype = CatKind.user) = pre :=
      List.filter_eq_self.mpr (fun x hx => by
        simp [huser x (by simp [hx])])
    have hfq : post.filter (fun x => x.ctype = CatKind.user) = post :=
      List.filter_eq_self.mpr (fun x hx => by
        simp [huser x (by simp [hx])])
    rw [hfp, hfq]
    simp
  rw [addPrompt]
  simp only [← hbody1, ← hniddef, ← hnewId, ← hnp, hattach, hupd]
  rw [saveAndReload]
  simp only []
  rw [hserAll]
  rfl

theorem c2_category_no_group_case (sys pre post : List PromptCategory)
    (c : PromptCategory) (label body0 : String) (tags : List String)
    (ev : EvalOutcome) (now : String)
    (hsys : ∀ x ∈ sys, x.ctype = CatKind.system)
    (huser : ∀ x ∈ pre ++ c :: post, x.ctype = CatKind.user)
    (hg : c.groups = [])
    (hskip : c.id ∉ entryIds (convertJsonToEntries sys ++ convertJsonToEntries pre)) :
    (addPrompt (loadedFrom sys (pre ++ c :: post)) label body0 tags (some c.id) ev
        now).2 = some (intToString (loadedFrom sys (pre ++ c :: post)).nextId) ∧
    jsParseInt (intToString (loadedFrom sys (pre ++ c :: post)).nextId) =
      some (loadedFrom sys (pre ++ c :: post)).nextId ∧
    (∀ j ∈ entryIds (loadedFrom sys (pre ++ c :: post)).prompts, ∀ n : Int,
      jsParseInt j = some n → n < (loadedFrom sys (pre ++ c :: post)).nextId) ∧
    (∃ e, findById (addPrompt (loadedFrom sys (pre ++ c :: post)) label body0 tags
          (some c.id) ev now).1.prompts
        (intToString (loadedFrom sys (pre ++ c :: post)).nextId) = some e ∧
      e.label = label ∧ e.prompt = some (cleanPromptText body0) ∧ e.tags = some tags) := by
  set nid := (loadedFrom sys (pre ++ c :: post)).nextId with hniddef
  set newId := intToString nid with hnewId
  set gid := intToString (nid + 1) with hgid
  set body1 := cleanPromptText body0 with hbody1
  set newRec : Prompt := { id := newId, label := label, prompt := body1, tags := tags }
    with hnewRec
  set dgJson : PromptGroup := { id := gid, label := "Default", prompts := [newRec] }
    with hdgJson
  set cNew : PromptCategory := { c with groups := [dgJson] } with hcNew
  have heq := c2_addPrompt_eq_nogroup sys pre post c label body0 tags ev now
    hsys huser hg hskip
  rw [← hniddef, ← hnewId, ← hgid, ← hbody1, ← hnewRec, ← hdgJson, ← hcNew] at heq
  have hnid : nid = getMaxId (loadedFrom sys (pre ++ c :: post)).prompts + 1 := rfl
  have hnn : 0 ≤ getMaxId (loadedFrom sys (pre ++ c :: post)).prompts :=
    getMaxId_nonneg _
  have hparse : jsParseInt newId = some nid := by
    rw [hnewId]
    exact jsParseInt_intToString nid (by omega)
  have hbound : ∀ j ∈ entryIds (loadedFrom sys (pre ++ c :: post)).prompts, ∀ n : Int,
      jsParseInt j = some n → n < nid := by
    intro j hj n hp
    have := getMaxId_bound _ j n hj hp
    omega
  have hfresh : ∀ j ∈ entryIds (loadedFrom sys (pre ++ c :: post)).prompts,
      ¬ newId = j := by
    intro j hj he
    have := hbound j hj nid (by rw [← he]; exact hparse)
    omega
  refine ⟨by rw [heq], hparse, hbound, ?_⟩
  have hP : (loadedFrom sys (pre ++ c :: post)).prompts =
      convertJsonToEntries sys ++ (convertJsonToEntries pre ++
        convertCategoryEntry c :: convertJsonToEntries post) := by
    show convertJsonToEntries (sys ++ (pre ++ c :: post)) = _
    rw [convertJson_append, convertJson_append]
    simp [convertJsonToEntries]
  have hcatc : convertCategoryEntry c =
      .mk c.id c.label .category (some c.ctype) none none (some []) none none none := by
    rw [convertCategoryEntry, hg]
    simp
  have hIds : entryIds (loadedFrom sys (pre ++ c :: post)).prompts =
      entryIds (convertJsonToEntries sys) ++ (entryIds (convertJsonToEntries pre) ++
        c.id :: entryIds (convertJsonToEntries post)) := by
    rw [hP, entryIds_append, entryIds_append, hcatc, entryIds_cons]
    simp [entryIds]
  have hsys_not : newId ∉ entryIds (convertJsonToEntries sys) := by
    intro h
    exact hfresh newId (by rw [hIds]; simp [h]) rfl
  have hpre_not : newId ∉ entryIds (convertJsonToEntries pre) := by
    intro h
    exact hfresh newId (by rw [hIds]; simp [h]) rfl
  have hcne : ¬ c.id = newId := by
    intro h
    exact hfresh c.id (by rw [hIds]; simp) h.symm
  have hgidne : ¬ gid = newId := by
    intro h
    have := intToString_inj_ge_one (nid + 1) nid (by omega) (by omega)
      (by rw [← hgid, ← hnewId, h])
    omega
  have hP2 : (loadedFrom sys ((pre ++ cNew :: post).map catTrimEval)).prompts =
      convertJsonToEntries sys ++ (convertJsonToEntries pre ++
        convertCategoryEntry cNew :: convertJsonToEntries post) := by
    show convertJsonToEntries (sys ++ (pre ++ cNew :: post).map catTrimEval) = _
    rw [convertJson_append, convert_trim, convertJson_append]
    simp [convertJsonToEntries]
  have hcatNew : convertCategoryEntry cNew =
      .mk c.id c.label .category (some c.ctype) none none
        (some [convertGroupEntry c.ctype c.id dgJson]) none none none := by
    rw [convertCategoryEntry, hcNew]
    simp
  have hgNew : convertGroupEntry c.ctype c.id dgJson =
      .mk gid "Default" .group (some c.ctype) none none
        (some [convertPromptEntry c.ctype c.id gid newRec]) (some c.id) (some c.id)
        none := by
    rw [convertGroupEntry, hdgJson]
    rfl
  refine ⟨convertPromptEntry c.ctype c.id gid newRec, ?_, rfl, ?_, rfl⟩
  · rw [heq]
    rw [hP2, findById_append_not_mem _ _ _ hsys_not,
      findById_append_not_mem _ _ _ hpre_not, hcatNew]
    refine findById_cons_descend _ _ _ _ _ _ _ _ _ _ _ _ _ hcne ?_
    rw [hgNew]
    refine findById_cons_descend _ _ _ _ _ _ _ _ _ _ _ _ _ hgidne ?_
    have : convertPromptEntry c.ctype c.id gid newRec =
        .mk newId label .prompt (some c.ctype) (some body1) (some tags) none
          (some gid) (some c.id) none := by
      rw [convertPromptEntry, hnewRec]
    rw [this, findById_cons_hit]
  · rw [convertPromptEntry, hnewRec]
    rfl

theorem c2_group_parent_case (sys pre post : List PromptCategory)
    (c : PromptCategory) (gpre : List PromptGroup) (g : PromptGroup)
    (gpost : List PromptGroup) (label body0 : String) (tags : List String)
    (ev : EvalOutcome) (now : String)
    (hsys : ∀ x ∈ sys, x.ctype = CatKind.system)
    (huser : ∀ x ∈ pre ++ c :: post, x.ctype = CatKind.user)
    (hg : c.groups = gpre ++ g :: gpost)
    (hskip : g.id ∉ entryIds (convertJsonToEntries sys ++ convertJsonToEntries pre))
    (hcg : ¬ c.id = g.id)
    (hgpre : g.id ∉ entryIds (gpre.map (convertGroupEntry c.ctype c.id))) :
    (addPrompt (loadedFrom sys (pre ++ c :: post)) label body0 tags (some g.id) ev
        now).2 = some (intToString (loadedFrom sys (pre ++ c :: post)).nextId) ∧
    jsParseInt (intToString (loadedFrom sys (pre ++ c :: post)).nextId) =
      some (loadedFrom sys (pre ++ c :: post)).nextId ∧
    (∀ j ∈ entryIds (loadedFrom sys (pre ++ c :: post)).prompts, ∀ n : Int,
      jsParseInt j = some n → n < (loadedFrom sys (pre ++ c :: post)).nextId) ∧
    (∃ e, findById (addPrompt (loadedFrom sys (pre ++ c :: post)) label body0 tags
          (some g.id) ev now).1.prompts
        (intToString (loadedFrom sys (pre ++ c :: post)).nextId) = some e ∧
      e.label = label ∧ e.prompt = some (cleanPromptText body0) ∧ e.tags = some tags) := by
  set nid := (loadedFrom sys (pre ++ c :: post)).nextId with hniddef
  set newId := intToString nid with hnewId
  set body1 := cleanPromptText body0 with hbody1
  set newRec : Prompt := { id := newId, label := label, prompt := body1, tags := tags }
    with hnewRec
  set gNew : PromptGroup := { g with prompts := g.prompts ++ [newRec] } with hgNewJ
  set cNew : PromptCategory := { c with groups := gpre ++ gNew :: gpost } with hcNew
  have heq := c2_addPrompt_eq_group sys pre post c gpre g gpost label body0 tags ev now
    hsys huser hg hskip hcg hgpre
  rw [← hniddef, ← hnewId, ← hbody1, ← hnewRec, ← hgNewJ, ← hcNew] at heq
  have hnid : nid = getMaxId (loadedFrom sys (pre ++ c :: post)).prompts + 1 := rfl
  have hnn : 0 ≤ getMaxId (loadedFrom sys (pre ++ c :: post)).prompts :=
    getMaxId_nonneg _
  have hparse : jsParseInt newId = some nid := by
    rw [hnewId]
    exact jsParseInt_intToString nid (by omega)
  have hbound : ∀ j ∈ entryIds (loadedFrom sys (pre ++ c :: post)).prompts, ∀ n : Int,
      jsParseInt j = some n → n < nid := by
    intro j hj n hp
    have := getMaxId_bound _ j n hj hp
    omega
  have hfresh : ∀ j ∈ entryIds (loadedFrom sys (pre ++ c :: post)).prompts,
      ¬ newId = j := by
    intro j hj he
    have := hbound j hj nid (by rw [← he]; exact hparse)
    omega
  refine ⟨by rw [heq], hparse, hbound, ?_⟩
  have hP : (loadedFrom sys (pre ++ c :: post)).prompts =
      convertJsonToEntries sys ++ (convertJsonToEntries pre ++
        convertCategoryEntry c :: convertJsonToEntries post) := by
    show convertJsonToEntries (sys ++ (pre ++ c :: post)) = _
    rw [convertJson_append, convertJson_append]
    simp [convertJsonToEntries]
  have hcatc : convertCategoryEntry c =
      .mk c.id c.label .category (some c.ctype) none none
        (some ((gpre ++ g :: gpost).map (convertGroupEntry c.ctype c.id)))
        none none none := by
    rw [convertCategoryEntry, hg]
  have hIds : entryIds (loadedFrom sys (pre ++ c :: post)).prompts =
      entryIds (convertJsonToEntries sys) ++ (entryIds (convertJsonToEntries pre) ++
        c.id :: ((entryIds (gpre.map (convertGroupEntry c.ctype c.id)) ++
          (g.id :: (g.prompts.map Prompt.id ++
            entryIds (gpost.map (convertGroupEntry c.ctype c.id))))) ++
          entryIds (convertJsonToEntries post))) := by
    rw [hP, entryIds_append, entryIds_append, hcatc, entryIds_cons]
    simp only []
    rw [List.map_append, entryIds_append, entryIds_convert_groups_cons]
  have hsys_not : newId ∉ entryIds (convertJsonToEntries sys) := by
    intro h
    exact hfresh newId (by rw [hIds]; simp [h]) rfl
  have hpre_not : newId ∉ entryIds (convertJsonToEntries pre) := by
    intro h
    exact hfresh newId (by rw [hIds]; simp [h]) rfl
  have hgpre_not : newId ∉ entryIds (gpre.map (convertGroupEntry c.ctype c.id)) := by
    intro h
    exact hfresh newId (by rw [hIds]; simp [h]) rfl
  have hps_not : newId ∉ entryIds (g.prompts.map
      (convertPromptEntry c.ctype c.id g.id)) := by
    rw [entryIds_convert_prompts]
    intro h
    exact hfresh newId (by rw [hIds]; simp [h]) rfl
  have hcne : ¬ c.id = newId := by
    intro h
    exact hfresh c.id (by rw [hIds]; simp) h.symm
  have hgne : ¬ g.id = newId := by
    intro h
    exact hfresh g.id (by rw [hIds]; simp) h.symm
  have hP2 : (loadedFrom sys ((pre ++ cNew :: post).map catTrimEval)).prompts =
      convertJsonToEntries sys ++ (convertJsonToEntries pre ++
        convertCategoryEntry cNew :: convertJsonToEntries post) := by
    show convertJsonToEntries (sys ++ (pre ++ cNew :: post).map catTrimEval) = _
    rw [convertJson_append, convert_trim, convertJson_append]
    simp [convertJsonToEntries]
  have hcatNew : convertCategoryEntry cNew =
      .mk c.id c.label .category (some c.ctype) none none
        (some (gpre.map (convertGroupEntry c.ctype c.id) ++
          convertGroupEntry c.ctype c.id gNew ::
            gpost.map (convertGroupEntry c.ctype c.id))) none none none := by
    rw [convertCategoryEntry, hcNew]
    simp
  have hgModE : convertGroupEntry c.ctype c.id gNew =
      .mk g.id g.label .group (some c.ctype) none none
        (some (g.prompts.map (convertPromptEntry c.ctype c.id g.id) ++
          [convertPromptEntry c.ctype c.id g.id newRec])) (some c.id) (some c.id)
        none := by
    rw [convertGroupEntry, hgNewJ]
    simp
  refine ⟨convertPromptEntry c.ctype c.id g.id newRec, ?_, rfl, ?_, rfl⟩
  · rw [heq]
    rw [hP2, findById_append_not_mem _ _ _ hsys_not,
      findById_append_not_mem _ _ _ hpre_not, hcatNew]
    refine findById_cons_descend _ _ _ _ _ _ _ _ _ _ _ _ _ hcne ?_
    rw [findById_append_not_mem _ _ _ hgpre_not, hgModE]
    refine findById_cons_descend _ _ _ _ _ _ _ _ _ _ _ _ _ hgne ?_
    rw [findById_append_not_mem _ _ _ hps_not]
    have : convertPromptEntry c.ctype c.id g.id newRec =
        .mk newId label .prompt (some c.ctype) (some body1) (some tags) none
          (some g.id) (some c.id) none := by
      rw [convertPromptEntry, hnewRec]
    rw [this, findById_cons_hit]
  · rw [convertPromptEntry, hnewRec]
    rfl

/-- Claim C2, amended.  Restricted to a store loaded from a system document of
system-typed categories and a user document of user-typed categories, with
`parentId` resolving (unshadowed in depth-first order) to a user-owned parent
- a user category, with or without groups, or a group of a user category:
`addPrompt` returns `some newId` where `newId` parses to the session counter,
that number is strictly greater than every numeric id present in the forest at
the time of the call, and `findById` on `newId` afterwards yields a prompt
node whose label and tags equal the inputs and whose body is the input after
placeholder-phrase stripping.  This covers all three attachment paths of the
source (push onto the first group, create a `'Default'` group, push onto the
group itself); only for a parent under a system category does the claim fail
(`addPrompt_system_parent_new_prompt_lost`). -/
theorem add_returns_fresh_id_and_findable (sys pre post : List PromptCategory)
    (c : PromptCategory) (pid : String) (label body0 : String) (tags : List String)
    (ev : EvalOutcome) (now : String)
    (hsys : ∀ x ∈ sys, x.ctype = CatKind.system)
    (huser : ∀ x ∈ pre ++ c :: post, x.ctype = CatKind.user)
    (hskip : pid ∉ entryIds (convertJsonToEntries sys ++ convertJsonToEntries pre))
    (hpid : pid = c.id ∨ ∃ gpre g gpost, c.groups = gpre ++ g :: gpost ∧
      pid = g.id ∧ ¬ c.id = pid ∧
      pid ∉ entryIds (gpre.map (convertGroupEntry c.ctype c.id))) :
    (addPrompt (loadedFrom sys (pre ++ c :: post)) label body0 tags (some pid) ev
        now).2 = some (intToString (loadedFrom sys (pre ++ c :: post)).nextId) ∧
    jsParseInt (intToString (loadedFrom sys (pre ++ c :: post)).nextId) =
      some (loadedFrom sys (pre ++ c :: post)).nextId ∧
    (∀ j ∈ entryIds (loadedFrom sys (pre ++ c :: post)).prompts, ∀ n : Int,
      jsParseInt j = some n → n < (loadedFrom sys (pre ++ c :: post)).nextId) ∧
    (∃ e, findById (addPrompt (loadedFrom sys (pre ++ c :: post)) label body0 tags
          (some pid) ev now).1.prompts
        (intToString (loadedFrom sys (pre ++ c :: post)).nextId) = some e ∧
      e.label = label ∧ e.prompt = some (cleanPromptText body0) ∧ e.tags = some tags) := by
  rcases hpid with rfl | ⟨gpre, g, gpost, hg, rfl, hcg, hgpre⟩
  · cases hgs : c.groups with
    | nil =>
      exact c2_category_no_group_case sys pre post c label body0 tags ev now
        hsys huser hgs hskip
    | cons g0 grest =>
      exact c2_category_with_group_case sys pre post c g0 grest label body0 tags ev now
        hsys huser hgs hskip
  · exact c2_group_parent_case sys pre post c gpre g gpost label body0 tags ev now
      hsys huser hg hskip hcg hgpre

theorem add_returns_fresh_id_and_findable_witness :
    ((∀ x ∈ [c2sysCat], x.ctype = CatKind.system) ∧
       (∀ x ∈ ([] : List PromptCategory) ++ c2userCat :: [], x.ctype = CatKind.user) ∧
       c2userCat.id ∉ entryIds (convertJsonToEntries [c2sysCat] ++
         convertJsonToEntries []) ∧
       (c2userCat.id = c2userCat.id ∨ ∃ gpre g gpost,
         c2userCat.groups = gpre ++ g :: gpost ∧ c2userCat.id = g.id ∧
         ¬ c2userCat.id = c2userCat.id ∧
         c2userCat.id ∉ entryIds (gpre.map
           (convertGroupEntry c2userCat.ctype c2userCat.id)))) ∧
      ((addPrompt (loadedFrom [c2sysCat] (([] : List PromptCategory) ++ c2userCat :: []))
          "L" "B" ["y"] (some c2userCat.id) EvalOutcome.undef "t").2 =
        some (intToString (loadedFrom [c2sysCat]
          (([] : List PromptCategory) ++ c2userCat :: [])).nextId) ∧
      jsParseInt (intToString (loadedFrom [c2sysCat]
          (([] : List PromptCategory) ++ c2userCat :: [])).nextId) =
        some (loadedFrom [c2sysCat]
          (([] : List PromptCategory) ++ c2userCat :: [])).nextId ∧
      (∀ j ∈ entryIds (loadedFrom [c2sysCat]
          (([] : List PromptCategory) ++ c2userCat :: [])).prompts, ∀ n : Int,
        jsParseInt j = some n → n < (loadedFrom [c2sysCat]
          (([] : List PromptCategory) ++ c2userCat :: [])).nextId) ∧
      (∃ e, findById (addPrompt (loadedFrom [c2sysCat]
            (([] : List PromptCategory) ++ c2userCat :: [])) "L" "B" ["y"]
            (some c2userCat.id) EvalOutcome.undef "t").1.prompts
          (intToString (loadedFrom [c2sysCat]
            (([] : List PromptCategory) ++ c2userCat :: [])).nextId) = some e ∧
        e.label = "L" ∧ e.prompt = some (cleanPromptText "B") ∧ e.tags = some ["y"])) := by
  have h1 : ∀ x ∈ [c2sysCat], x.ctype = CatKind.system := by
    intro x hx
    simp only [List.mem_singleton] at hx
    rw [hx]
    rfl
  have h2 : ∀ x ∈ ([] : List PromptCategory) ++ c2userCat :: [],
      x.ctype = CatKind.user := by
    intro x hx
    simp only [List.nil_append, List.mem_singleton] at hx
    rw [hx]
    rfl
  have h4 : c2userCat.id ∉ entryIds (convertJsonToEntries [c2sysCat] ++
      convertJsonToEntries []) := by
    simp [convertJsonToEntries, convertCategoryEntry, convertGroupEntry,
      convertPromptEntry, entryIds, c2sysCat, c2userCat]
  have h5 : c2userCat.id = c2userCat.id ∨ ∃ gpre g gpost,
      c2userCat.groups = gpre ++ g :: gpost ∧ c2userCat.id = g.id ∧
      ¬ c2userCat.id = c2userCat.id ∧
      c2userCat.id ∉ entryIds (gpre.map
        (convertGroupEntry c2userCat.ctype c2userCat.id)) := Or.inl rfl
  exact ⟨⟨h1, h2, h4, h5⟩,
    add_returns_fresh_id_and_findable [c2sysCat] [] [] c2userCat c2userCat.id
      "L" "B" ["y"] EvalOutcome.undef "t" h1 h2 h4 h5⟩

end PromptLib
